import Mathlib

set_option maxRecDepth 100000

attribute [local semireducible] Rat.add Rat.mul Rat.sub Rat.inv

/-! A verification development for the clox bytecode compiler and stack
virtual machine (src/compiler.c, src/vm.c, src/chunk.c, src/value.c,
src/table.c, with declarations from the headers under include/).  The C code
is embedded shallowly: machine integers become `Nat` with explicit `% 256`
and `% 65536` where the C performs `uint8_t`/`uint16_t` conversions, C
`double` becomes `Rat` (every numeric value appearing in the programs
studied here is a small integer, on which IEEE-754 double arithmetic and
exact rational arithmetic agree), growable arrays become `List`, and the
global mutable `parser`/`current`/`vm` state becomes explicit state records
threaded through the functions.  Parsing functions that in C form a mutually
recursive call graph take an explicit fuel argument; fuel is consumed only
by nesting and looping, so any sufficiently large fuel computes the same
result as the C code. -/

namespace Clox

/-- Precedence ordinals, from the `Precedence` enum in compiler.c (the enum
ordinal is the binding power). -/
def PREC_NONE : Nat := 0

/-- Precedence of `=`. -/
def PREC_ASSIGNMENT : Nat := 1

/-- Precedence rung for `or`. -/
def PREC_OR : Nat := 2

/-- Precedence rung for `and`. -/
def PREC_AND : Nat := 3

/-- Precedence of `==` and `!=`. -/
def PREC_EQUALITY : Nat := 4

/-- Precedence of `<`, `>`, `<=`, `>=`. -/
def PREC_COMPARISON : Nat := 5

/-- Precedence of `+` and `-`. -/
def PREC_TERM : Nat := 6

/-- Precedence of `*` and `/`. -/
def PREC_FACTOR : Nat := 7

/-- Precedence of unary `!` and `-`. -/
def PREC_UNARY : Nat := 8

/-- Precedence of `.` and `(`. -/
def PREC_CALL : Nat := 9

/-- Highest precedence rung. -/
def PREC_PRIMARY : Nat := 10

/-- Opcode byte values.  chunk.h fixes `OP_RETURN = 100` and lets the enum
count up from there through `OP_LESS`. -/
def OP_RETURN : Nat := 100

/-- Push a constant; one u8 operand (constant-pool index). -/
def OP_CONSTANT : Nat := 101

/-- Declared in chunk.h (u16 operand); never emitted by the compiler. -/
def OP_CONSTANT_LONG : Nat := 102

/-- Binary add (numbers or string concatenation). -/
def OP_ADD : Nat := 103

/-- Binary subtract. -/
def OP_SUBTRACT : Nat := 104

/-- Binary multiply. -/
def OP_MULTIPLY : Nat := 105

/-- Binary divide. -/
def OP_DIVIDE : Nat := 106

/-- Logical not (pushes `isFalsey(pop())`). -/
def OP_NOT : Nat := 107

/-- Numeric negation. -/
def OP_NEGATE : Nat := 108

/-- Pop and print the top of the stack. -/
def OP_PRINT : Nat := 109

/-- Push nil. -/
def OP_NIL : Nat := 110

/-- Push true. -/
def OP_TRUE : Nat := 111

/-- Push false. -/
def OP_FALSE : Nat := 112

/-- Discard the top of the stack. -/
def OP_POP : Nat := 113

/-- Read a global; one u8 operand (name constant index). -/
def OP_GET_GLOBAL : Nat := 114

/-- Assign a global; one u8 operand (name constant index). -/
def OP_SET_GLOBAL : Nat := 115

/-- Define a global; one u8 operand (name constant index). -/
def OP_DEFINE_GLOBAL : Nat := 116

/-- Value equality test. -/
def OP_EQUAL : Nat := 117

/-- Numeric greater-than. -/
def OP_GREATER : Nat := 118

/-- Numeric less-than. -/
def OP_LESS : Nat := 119

/-- Modelled from the spec: the `OpCode` enum in the copy of chunk.h under
src/ stops at `OP_LESS`, yet compiler.c and vm.c reference the following
local/jump/call/closure opcodes, whose enum entries live in a revision of
chunk.h not included under src/.  Spec §4.4 states that the ordering inside
the enum is irrelevant to semantics but fixed per build; we number them as
the continuation of the enum.  No operand byte emitted by the compiler for
the programs studied here collides with these values (operands are small
constant-pool indices, slot numbers, argument counts and 0/1 flags). -/
def OP_GET_LOCAL : Nat := 120

/-- Write a local slot; one u8 operand. -/
def OP_SET_LOCAL : Nat := 121

/-- Unconditional forward jump; u16 big-endian operand. -/
def OP_JUMP : Nat := 122

/-- Conditional forward jump; u16 big-endian operand; does not pop. -/
def OP_JUMP_IF_FALSE : Nat := 123

/-- Backward jump; u16 big-endian operand. -/
def OP_LOOP : Nat := 124

/-- Call; one u8 operand (argument count). -/
def OP_CALL : Nat := 125

/-- Build a closure; u8 fn constant index, then upvalue pairs. -/
def OP_CLOSURE : Nat := 126

/-- Read an upvalue; one u8 operand. -/
def OP_GET_UPVALUE : Nat := 127

/-- Write an upvalue; one u8 operand. -/
def OP_SET_UPVALUE : Nat := 128

/-- Close the upvalue at the top of the stack. -/
def OP_CLOSE_UPVALUE : Nat := 129

/-- Token types of the scanner contract (spec §4.1; scanner.h/scanner.c are
not under src/). -/
inductive TokenType where
  | TOKEN_LEFT_PAREN | TOKEN_RIGHT_PAREN | TOKEN_LEFT_BRACE | TOKEN_RIGHT_BRACE
  | TOKEN_COMMA | TOKEN_DOT | TOKEN_MINUS | TOKEN_PLUS | TOKEN_SEMICOLON
  | TOKEN_SLASH | TOKEN_STAR
  | TOKEN_BANG | TOKEN_BANG_EQUAL | TOKEN_EQUAL | TOKEN_EQUAL_EQUAL
  | TOKEN_GREATER | TOKEN_GREATER_EQUAL | TOKEN_LESS | TOKEN_LESS_EQUAL
  | TOKEN_IDENTIFIER | TOKEN_STRING | TOKEN_NUMBER
  | TOKEN_AND | TOKEN_CLASS | TOKEN_ELSE | TOKEN_FALSE | TOKEN_FOR | TOKEN_FUN
  | TOKEN_IF | TOKEN_NIL | TOKEN_OR | TOKEN_PRINT | TOKEN_RETURN
  | TOKEN_SUPER | TOKEN_THIS | TOKEN_TRUE | TOKEN_VAR | TOKEN_WHILE
  | TOKEN_ERROR | TOKEN_EOF
deriving DecidableEq, Repr

/-- A scanner token: `Token {type, lexeme_slice, line}` per the scanner
contract.  The C token stores a pointer/length slice of the source; we store
the lexeme string itself. -/
structure Token where
  ttype : TokenType
  lexeme : String
  line : Nat
deriving DecidableEq, Repr

/-- Runtime/constant values (value.h's tagged `Value` union together with
the object kinds of object.h that the code under src/ can produce).  Strings
are represented by their character content: object.c (not under src/)
interns every string, so the content is a faithful stand-in for the unique
canonical `ObjString*` handle (spec §3, §9 "Interning via identity").
`fn` carries the fields of `ObjFunction` (arity, upvalueCount, chunk code,
chunk constant pool, chunk line table, optional name).  `native` carries
just a tag naming the C function pointer. -/
inductive Value where
  | nil
  | vbool (b : Bool)
  | num (q : Rat)
  | str (s : String)
  | fn (arity : Nat) (upCnt : Nat) (code : List Nat) (consts : List Value)
       (lines : List Nat) (name : Option String)
  | native (tag : String)

/-- Tag check used by `IS_NUMBER`. -/
def Value.isNumber : Value → Bool
  | .num _ => true
  | _ => false

/-- Tag check used by `IS_STRING` (`isObjType(value, OBJ_STRING)`). -/
def Value.isString : Value → Bool
  | .str _ => true
  | _ => false

/-- The `isFalsey` helper of vm.c: nil and false are falsey, everything
else is truthy. -/
def isFalsey : Value → Bool
  | .nil => true
  | .vbool b => !b
  | _ => false

/-- Decimal rendering of an integer, for the `%g` formatting inside
`printValue` (value.c).  `%g` prints an integral double with no decimal
point, which is exactly the decimal numeral. -/
def intRepr (i : Int) : String := Int.repr i

/-- The text `printValue` (value.c) writes for a value.  `printObject` lives
in object.c, which is not under src/; its rendering of functions is
modelled from the spec's disassembler conventions (`<script>` for the
unnamed top-level function).  A non-integral number would be formatted by
`%g` with decimal notation; no program studied here prints one, and we
render such a number as an exact fraction. -/
def renderValue : Value → String
  | .nil => "nil"
  | .vbool true => "true"
  | .vbool false => "false"
  | .num q => if q.den = 1 then intRepr q.num else intRepr q.num ++ "/" ++ Nat.repr q.den
  | .str s => s
  | .fn _ _ _ _ _ (some n) => "<fn " ++ n ++ ">"
  | .fn _ _ _ _ _ none => "<script>"
  | .native _ => "<native fn>"

/-- A value model in which the object handle (the `Obj*` pointer) is kept
explicit, for stating claims about handle identity.  An object carries its
handle and, as `valuesEqual` (value.c) reinterprets every object operand as
an `ObjString`, its string payload (length and bytes, here a `String`).
Non-string objects reinterpreted as strings read memory outside their own
layout, which has no shallow embedding; the `HValue` model therefore covers
the values on which `valuesEqual` is defined behavior, namely strings. -/
inductive HValue where
  | nil
  | vbool (b : Bool)
  | num (q : Rat)
  | obj (handle : Nat) (chars : String)
deriving DecidableEq, Repr

/-- The object handle of an `HValue`, when it is an object. -/
def HValue.handleOf : HValue → Option Nat
  | .obj h _ => some h
  | _ => none

/-- The tag (`ValueType`) of an `HValue`, as a discriminant. -/
def HValue.tagOf : HValue → Nat
  | .nil => 0
  | .vbool _ => 1
  | .num _ => 2
  | .obj _ _ => 3

/-- valuesEqual from value.c: different tags compare unequal; `nil == nil`
is true; booleans and numbers compare by payload; in the `VAL_OBJ` case both
operands are cast with `AS_STRING` and compared by length and `memcmp` over
the bytes — that is, by string content, not by pointer. -/
def valuesEqual : HValue → HValue → Bool
  | .nil, .nil => true
  | .vbool a, .vbool b => a == b
  | .num a, .num b => a == b
  | .obj _ sa, .obj _ sb => sa.length == sb.length && sa == sb
  | _, _ => false

/-- The globals table (table.c) embedded extensionally as an association
list.  The C table is open-addressed with tombstones; its keys are interned
`ObjString*` handles and `findEntry` compares keys by handle identity
(table.c:43), which under interning is content equality, so the list is
keyed by the string content.  `tableSet` returns `isNewKey`, true exactly
when the key had no live entry; a fresh key's entry is appended.  Probing,
load-factor growth and tombstone reuse only affect slot layout, not the
mapping observed through `tableGet`/`tableSet`/`tableDelete`. -/
def tableGet : List (String × Value) → String → Option Value
  | [], _ => none
  | (k', v) :: r, k => if k' = k then some v else tableGet r k

/-- tableSet: updates the live entry for `k` in place, or appends a new
entry, returning the new table and `isNewKey`. -/
def tableSet : List (String × Value) → String → Value → List (String × Value) × Bool
  | [], k, v => ([(k, v)], true)
  | (k', v') :: r, k, v =>
    if k' = k then ((k', v) :: r, false)
    else
      let p := tableSet r k v
      ((k', v') :: p.1, p.2)

/-- tableDelete: removes the live entry for `k` (the C code tombstones the
slot; extensionally the binding is gone). -/
def tableDelete : List (String × Value) → String → List (String × Value)
  | [], _ => []
  | (k', v') :: r, k => if k' = k then r else (k', v') :: tableDelete r k

/-- Modelled from the spec: the scanner (external per spec §1/§4.1) hands
`number()` the lexeme slice, and compiler.c:344 converts it with `strtod`.
Every number literal in the programs studied here is a plain digit string,
on which `strtod` yields the exact integer. -/
def strtodModel (s : String) : Rat :=
  ((s.data.foldl (fun n c => n * 10 + (c.toNat - 48)) 0 : Nat) : Rat)

/-- The `Local` record of compiler.c: the declaring token, the scope depth
(`-1` while declared but uninitialized) and the capture flag. -/
structure LocalVar where
  name : Token
  depth : Int
  isCaptured : Bool
deriving DecidableEq, Repr

/-- The compiler's `Upvalue` record: index and is-local flag. -/
structure UpvalueRec where
  index : Nat
  isLocal : Bool
deriving DecidableEq, Repr

/-- FunctionType from compiler.c. -/
inductive FunctionType where
  | TYPE_FUNCTION
  | TYPE_SCRIPT
deriving DecidableEq, Repr

/-- One entry of the compiler stack: the `Compiler` struct of compiler.c
fused with the `ObjFunction` (and its `Chunk`) it is filling in.  `code`,
`lines` and `constants` are the current chunk; `upvalues` doubles as the
compiler's upvalue array and the function's `upvalueCount` (its length —
`addUpValue` grows both in lock step). -/
structure CompFrame where
  ftype : FunctionType
  fname : Option String
  arity : Nat
  code : List Nat
  lines : List Nat
  constants : List Value
  locals : List LocalVar
  scopeDepth : Nat
  upvalues : List UpvalueRec

/-- The parser/compiler state: the token stream still to be scanned (the
pull-based scanner contract becomes a list), the `parser` globals of
compiler.c, the stderr lines written by `errorAt`, and the stack of
compilers (`current` is the head, `enclosing` the tail).  Note that
`errorAt` in this revision of compiler.c never sets `hadError`; the field
is carried faithfully and stays false. -/
structure CState where
  tokens : List Token
  currentTok : Token
  previousTok : Token
  hadError : Bool
  panicMode : Bool
  errors : List String
  comps : List CompFrame

/-- The placeholder token for `parser.current`/`parser.previous` before the
first `advance()` (uninitialized in C, never read before being set). -/
def dummyTok : Token := ⟨.TOKEN_EOF, "", 0⟩

/-- The stderr text `errorAt` (compiler.c:99) produces for one error. -/
def errorText (tok : Token) (message : String) : String :=
  "[line " ++ Nat.repr tok.line ++ "] Error" ++
    (match tok.ttype with
      | .TOKEN_EOF => " at end"
      | .TOKEN_ERROR => ""
      | _ => " at '" ++ tok.lexeme ++ "'") ++
    ": " ++ message

/-- errorAt: suppressed while panicking; otherwise enters panic mode and
writes the message.  This revision does not set `parser.hadError`. -/
def errorAt (tok : Token) (message : String) (s : CState) : CState :=
  if s.panicMode then s
  else { s with panicMode := true, errors := s.errors ++ [errorText tok message] }

/-- error(): report at the previous token. -/
def errorPrev (message : String) (s : CState) : CState :=
  errorAt s.previousTok message s

/-- errorAtCurrent(): report at the current token. -/
def errorCur (message : String) (s : CState) : CState :=
  errorAt s.currentTok message s

/-- The scan loop inside `advance()`: pull tokens, reporting and skipping
`TOKEN_ERROR` tokens; an exhausted stream keeps yielding EOF. -/
def advanceGo : List Token → CState → CState
  | [], s => { s with currentTok := dummyTok, tokens := [] }
  | t :: r, s =>
    let s := { s with currentTok := t, tokens := r }
    if t.ttype = .TOKEN_ERROR then advanceGo r (errorCur t.lexeme s) else s

/-- advance(): previous := current, then scan the next non-error token. -/
def advanceF (s : CState) : CState :=
  advanceGo s.tokens { s with previousTok := s.currentTok }

/-- consume(): advance on the expected token type, else error at current. -/
def consumeF (ty : TokenType) (message : String) (s : CState) : CState :=
  if s.currentTok.ttype = ty then advanceF s else errorCur message s

/-- check(): test the current token's type. -/
def checkF (ty : TokenType) (s : CState) : Bool :=
  s.currentTok.ttype = ty

/-- match(): check and, on success, advance. -/
def matchTokF (ty : TokenType) (s : CState) : Bool × CState :=
  if checkF ty s then (true, advanceF s) else (false, s)

/-- Apply a function to the current (innermost) compiler. -/
def mapComp (f : CompFrame → CompFrame) (s : CState) : CState :=
  { s with comps := match s.comps with
      | [] => []
      | c :: r => f c :: r }

/-- The current chunk's code (currentChunk()->code). -/
def curCode (s : CState) : List Nat :=
  ((s.comps.head?).map (fun c => c.code)).getD []

/-- emitByte: `writeChunk(currentChunk(), byte, parser.previous.line)`.  The
`% 256` is the conversion to the `uint8_t` parameter. -/
def emitByteF (b : Nat) (s : CState) : CState :=
  mapComp (fun c =>
    { c with code := c.code ++ [b % 256], lines := c.lines ++ [s.previousTok.line] }) s

/-- emitBytes: two emitByte calls. -/
def emitBytesF (b1 b2 : Nat) (s : CState) : CState :=
  emitByteF b2 (emitByteF b1 s)

/-- emitLoop: OP_LOOP with a big-endian 16-bit back distance
`count - loopStart + 2`; over 65535 reports "Loop body too large". -/
def emitLoopF (loopStart : Nat) (s : CState) : CState :=
  let s := emitByteF OP_LOOP s
  let offset := (curCode s).length - loopStart + 2
  let s := if offset > 65535 then errorPrev "Loop body too large" s else s
  emitByteF (offset % 256) (emitByteF (offset / 256 % 256) s)

/-- emitJump: emit the instruction and two 0xff placeholder bytes; return
the offset of the first placeholder (`count - 2`). -/
def emitJumpF (instruction : Nat) (s : CState) : CState × Nat :=
  let s := emitByteF 255 (emitByteF 255 (emitByteF instruction s))
  (s, (curCode s).length - 2)

/-- emitReturn: OP_NIL then OP_RETURN. -/
def emitReturnF (s : CState) : CState :=
  emitByteF OP_RETURN (emitByteF OP_NIL s)

/-- addConstant (chunk.c): append to the pool, return `count - 1` converted
to the declared `uint16_t` return type.  `writeValueArray` aborts the
process if the pool would exceed 65535 entries (value.c:20-27); no program
studied here approaches that bound, so the embedding is total. -/
def addConstantC (c : CompFrame) (v : Value) : CompFrame × Nat :=
  ({ c with constants := c.constants ++ [v] }, c.constants.length % 65536)

/-- makeConstant (compiler.c:194): add the constant; the guard compares the
`uint16_t` result against `UINT16_MAX`, reporting "Too many constants in
one chunk" — the comparison is between a value at most 65535 and 65535. -/
def makeConstantF (v : Value) (s : CState) : CState × Nat :=
  match s.comps with
  | [] => (s, 0)
  | c :: r =>
    let p := addConstantC c v
    let s := { s with comps := p.1 :: r }
    if p.2 > 65535 then (errorPrev "Too many constants in one chunk" s, 0)
    else (s, p.2)

/-- emitConstant: OP_CONSTANT plus the constant index (the index is passed
to emitByte's `uint8_t` parameter, hence truncated mod 256). -/
def emitConstantF (v : Value) (s : CState) : CState :=
  let p := makeConstantF v s
  emitBytesF OP_CONSTANT p.2 p.1

/-- patchJump (compiler.c:208): write `jump = count - offset - 2` into the
two reserved bytes, high byte first (`(jump >> 8) & 0xff` then
`jump & 0xff`); report "Too much code to jump over." above 65535 (the
bytes are still written). -/
def patchJumpF (offset : Nat) (s : CState) : CState :=
  let jump := (curCode s).length - offset - 2
  let s := if jump > 65535 then errorPrev "Too much code to jump over." s else s
  mapComp (fun c =>
    { c with code := (c.code.set offset (jump / 256 % 256)).set (offset + 1) (jump % 256) }) s

/-- initCompiler: push a fresh compiler; name a non-script function after
`parser.previous` (copyString of the lexeme); claim locals slot 0 with an
empty name at depth 0. -/
def initCompilerF (ty : FunctionType) (s : CState) : CState :=
  { s with comps :=
      { ftype := ty
        fname := if ty = .TYPE_SCRIPT then none else some s.previousTok.lexeme
        arity := 0
        code := []
        lines := []
        constants := []
        locals := [⟨⟨.TOKEN_IDENTIFIER, "", 0⟩, 0, false⟩]
        scopeDepth := 0
        upvalues := [] } :: s.comps }

/-- endCompiler: emitReturn, pop the compiler, hand back the finished
`ObjFunction` as a value together with the popped compiler's upvalue array
(which `function()` still reads after endCompiler returns). -/
def endCompilerF (s : CState) : CState × Value × List UpvalueRec :=
  let s := emitReturnF s
  match s.comps with
  | [] => (s, .nil, [])
  | c :: r =>
    ({ s with comps := r },
     .fn c.arity c.upvalues.length c.code c.constants c.lines c.fname,
     c.upvalues)

/-- beginScope: bump the scope depth. -/
def beginScopeF (s : CState) : CState :=
  mapComp (fun c => { c with scopeDepth := c.scopeDepth + 1 }) s

/-- The pop loop of endScope: while the top local is deeper than the (new)
scope depth, emit OP_CLOSE_UPVALUE or OP_POP and drop it.  Fuel 257 covers
the 256-local maximum enforced by addLocal. -/
def endScopeLoopF : Nat → CState → CState
  | 0, s => s
  | f + 1, s =>
    match s.comps with
    | [] => s
    | c :: _ =>
      match c.locals.getLast? with
      | none => s
      | some l =>
        if l.depth > (c.scopeDepth : Int) then
          let s := emitByteF (if l.isCaptured then OP_CLOSE_UPVALUE else OP_POP) s
          endScopeLoopF f (mapComp (fun c => { c with locals := c.locals.dropLast }) s)
        else s

/-- endScope: decrement the depth, then pop the dead locals. -/
def endScopeF (s : CState) : CState :=
  endScopeLoopF 257 (mapComp (fun c => { c with scopeDepth := c.scopeDepth - 1 }) s)

/-- identifiersEqual: length check plus memcmp over the lexeme bytes, i.e.
string equality of the lexemes. -/
def identifiersEqual (a b : Token) : Bool :=
  a.lexeme == b.lexeme

/-- The backward walk of resolveLocal over the locals (called with the
reversed list and the top index): the first hit from the top returns its
index and whether the local is still uninitialized (`depth == -1`, in which
case resolveLocal reports "Can't read local variable in its own
initializer"). -/
def resolveLocalRev : List LocalVar → Nat → String → Option (Nat × Bool)
  | [], _, _ => none
  | l :: rest, i, nm =>
    if l.name.lexeme == nm then some (i, l.depth == -1)
    else resolveLocalRev rest (i - 1) nm

/-- resolveLocal on one compiler's locals. -/
def resolveLocalF (locs : List LocalVar) (nm : String) : Option (Nat × Bool) :=
  resolveLocalRev locs.reverse (locs.length - 1) nm

/-- addUpValue: reuse an identical upvalue; at 256 report "Too many closure
variables in function." and return index 0; otherwise append.  The error
message, if any, is returned for the caller to route through errorAt. -/
def addUpValueF (c : CompFrame) (index : Nat) (isLocal : Bool) :
    CompFrame × Nat × Option String :=
  match c.upvalues.findIdx? (fun u => u.index == index && u.isLocal == isLocal) with
  | some i => (c, i, none)
  | none =>
    if c.upvalues.length == 256 then (c, 0, some "Too many closure variables in function.")
    else ({ c with upvalues := c.upvalues ++ [⟨index, isLocal⟩] }, c.upvalues.length, none)

/-- Mark a local of the enclosing compiler as captured. -/
def markCaptured (locs : List LocalVar) (i : Nat) : List LocalVar :=
  match locs.get? i with
  | none => locs
  | some l => locs.set i { l with isCaptured := true }

/-- resolveUpvalue on the compiler stack (head = innermost): find the name
as a local of the enclosing compiler (marking it captured and registering a
local upvalue), else recurse outward and register a non-local upvalue.
Error messages raised along the way (`resolveLocal`'s own-initializer
report, addUpValue's limit) are collected for the caller to route through
errorAt in order. -/
def resolveUpvalueF : List CompFrame → String → List CompFrame × Option Nat × List String
  | [], _ => ([], none, [])
  | [c], _ => ([c], none, [])
  | c :: e :: rest, nm =>
    match resolveLocalF e.locals nm with
    | some pr =>
      let errs := if pr.2 then ["Can't read local variable in its own initializer"] else []
      let e' := { e with locals := markCaptured e.locals pr.1 }
      let trip := addUpValueF c pr.1 true
      (trip.1 :: e' :: rest, some trip.2.1, errs ++ trip.2.2.toList)
    | none =>
      let rec' := resolveUpvalueF (e :: rest) nm
      match rec'.2.1 with
      | some u =>
        let trip := addUpValueF c u false
        (trip.1 :: rec'.1, some trip.2.1, rec'.2.2 ++ trip.2.2.toList)
      | none => (c :: rec'.1, none, rec'.2.2)

/-- addLocal: refuse a 257th local with "Too many local variables in
function."; otherwise push the local, declared-but-uninitialized. -/
def addLocalF (name : Token) (s : CState) : CState :=
  match s.comps with
  | [] => s
  | c :: r =>
    if c.locals.length == 256 then errorPrev "Too many local variables in function." s
    else { s with comps := { c with locals := c.locals ++ [⟨name, -1, false⟩] } :: r }

/-- The duplicate scan of declareVariable: walk the locals from the top
(called with the reversed list), stopping at the first initialized local of
an outer scope; a same-name local before that is a redeclaration. -/
def dupInScope : List LocalVar → Nat → Token → Bool
  | [], _, _ => false
  | l :: rest, sd, name =>
    if l.depth ≠ -1 ∧ l.depth < (sd : Int) then false
    else if identifiersEqual name l.name then true
    else dupInScope rest sd name

/-- declareVariable: duplicate check ("Already a variable with same name in
this scope.") then addLocal; reached only from parseVariable's local
branch. -/
def declareVariableF (s : CState) : CState :=
  let name := s.previousTok
  match s.comps with
  | [] => s
  | c :: _ =>
    let s := if dupInScope c.locals.reverse c.scopeDepth name
      then errorPrev "Already a variable with same name in this scope." s else s
    addLocalF name s

/-- identifierConstant: intern the identifier's lexeme as a string value
and add it to the constant pool. -/
def identifierConstantF (name : Token) (s : CState) : CState × Nat :=
  makeConstantF (.str name.lexeme) s

/-- parseVariable: consume the identifier; at global scope return its
constant-pool index, otherwise declare the local and return 0. -/
def parseVariableF (errorMessage : String) (s : CState) : CState × Nat :=
  let s := consumeF .TOKEN_IDENTIFIER errorMessage s
  match s.comps with
  | [] => (s, 0)
  | c :: _ =>
    if c.scopeDepth == 0 then identifierConstantF s.previousTok s
    else (declareVariableF s, 0)

/-- markInitialized: at global scope, nothing; otherwise flip the newest
local's depth from -1 to the current scope depth. -/
def markInitializedF (s : CState) : CState :=
  mapComp (fun c =>
    if c.scopeDepth == 0 then c
    else match c.locals.getLast? with
      | none => c
      | some l => { c with locals := c.locals.dropLast ++ [{ l with depth := (c.scopeDepth : Int) }] }) s

/-- defineVariable: locals are just marked initialized; globals emit
OP_DEFINE_GLOBAL with the name's constant index (a `uint8_t` parameter). -/
def defineVariableF (global : Nat) (s : CState) : CState :=
  match s.comps with
  | [] => s
  | c :: _ =>
    if c.scopeDepth > 0 then markInitializedF s
    else emitBytesF OP_DEFINE_GLOBAL global s

/-- The prefix parse functions of the rules table, as tags (C stores
function pointers; the dispatch lives in the parser below). -/
inductive PAct where
  | grouping | number | strLit | literal | varRef | unary
deriving DecidableEq, Repr

/-- The infix parse functions of the rules table, as tags. -/
inductive IAct where
  | binary | callAct | andAct | orAct
deriving DecidableEq, Repr

/-- One row of the rules table. -/
structure PRule where
  pre : Option PAct
  inf : Option IAct
  prec : Nat

/-- The static Pratt rules table of compiler.c:526-568, row for row.  Note
`TOKEN_AND` and `TOKEN_OR` carry `PREC_NONE` in this table (compiler.c:550,
558). -/
def getRuleF : TokenType → PRule
  | .TOKEN_LEFT_PAREN => ⟨some .grouping, some .callAct, PREC_CALL⟩
  | .TOKEN_MINUS => ⟨some .unary, some .binary, PREC_TERM⟩
  | .TOKEN_PLUS => ⟨none, some .binary, PREC_TERM⟩
  | .TOKEN_SLASH => ⟨none, some .binary, PREC_FACTOR⟩
  | .TOKEN_STAR => ⟨none, some .binary, PREC_FACTOR⟩
  | .TOKEN_BANG => ⟨some .unary, none, PREC_NONE⟩
  | .TOKEN_BANG_EQUAL => ⟨none, some .binary, PREC_EQUALITY⟩
  | .TOKEN_EQUAL_EQUAL => ⟨none, some .binary, PREC_EQUALITY⟩
  | .TOKEN_GREATER => ⟨none, some .binary, PREC_COMPARISON⟩
  | .TOKEN_GREATER_EQUAL => ⟨none, some .binary, PREC_COMPARISON⟩
  | .TOKEN_LESS => ⟨none, some .binary, PREC_COMPARISON⟩
  | .TOKEN_LESS_EQUAL => ⟨none, some .binary, PREC_COMPARISON⟩
  | .TOKEN_IDENTIFIER => ⟨some .varRef, none, PREC_NONE⟩
  | .TOKEN_STRING => ⟨some .strLit, none, PREC_NONE⟩
  | .TOKEN_NUMBER => ⟨some .number, none, PREC_NONE⟩
  | .TOKEN_AND => ⟨none, some .andAct, PREC_NONE⟩
  | .TOKEN_OR => ⟨none, some .orAct, PREC_NONE⟩
  | .TOKEN_FALSE => ⟨some .literal, none, PREC_NONE⟩
  | .TOKEN_NIL => ⟨some .literal, none, PREC_NONE⟩
  | .TOKEN_TRUE => ⟨some .literal, none, PREC_NONE⟩
  | _ => ⟨none, none, PREC_NONE⟩

/-- number(): strtod on the previous token's lexeme, emitted as a number
constant. -/
def numberF (s : CState) : CState :=
  emitConstantF (.num (strtodModel s.previousTok.lexeme)) s

/-- Strip the surrounding quote characters from a string lexeme
(`start + 1`, `length - 2`). -/
def trimQuotes (s : String) : String :=
  ⟨(s.data.drop 1).dropLast⟩

/-- string(): copy the lexeme minus its quotes and emit it as a string
constant. -/
def stringLitF (s : CState) : CState :=
  emitConstantF (.str (trimQuotes s.previousTok.lexeme)) s

/-- literal(): false/nil/true push instructions; anything else emits
nothing. -/
def literalF (s : CState) : CState :=
  match s.previousTok.ttype with
  | .TOKEN_FALSE => emitByteF OP_FALSE s
  | .TOKEN_NIL => emitByteF OP_NIL s
  | .TOKEN_TRUE => emitByteF OP_TRUE s
  | _ => s

/-- synchronize()'s scan loop: advance until just past a `;` or in front of
a statement keyword (or EOF). -/
def synchronizeGo : Nat → CState → CState
  | 0, s => s
  | f + 1, s =>
    if s.currentTok.ttype = .TOKEN_EOF then s
    else if s.previousTok.ttype = .TOKEN_SEMICOLON then s
    else
      match s.currentTok.ttype with
      | .TOKEN_CLASS | .TOKEN_FUN | .TOKEN_VAR | .TOKEN_FOR | .TOKEN_IF
      | .TOKEN_WHILE | .TOKEN_PRINT | .TOKEN_RETURN => s
      | _ => synchronizeGo f (advanceF s)

/-- synchronize(): leave panic mode, then scan forward (each step consumes
a token, so the remaining stream length bounds the loop). -/
def synchronizeF (s : CState) : CState :=
  synchronizeGo (s.tokens.length + 2) { s with panicMode := false }

mutual

/-- parsePrecedence (compiler.c:571): advance, run the prefix rule of the
previous token (or report "Expect expression."), then fold infix rules
while the current token binds at least as tightly; finally a stray `=`
after an assignable expression is "Invalid assignment target.". -/
def parsePrecedenceF : Nat → Nat → CState → CState
  | 0, _, s => s
  | fuel + 1, prec, s =>
    let s := advanceF s
    match (getRuleF s.previousTok.ttype).pre with
    | none => errorPrev "Expect expression." s
    | some pf =>
      let canAssign := decide (prec ≤ PREC_ASSIGNMENT)
      let s := runPrefixF fuel pf canAssign s
      let s := infixLoopF fuel prec canAssign s
      if canAssign then
        let p := matchTokF .TOKEN_EQUAL s
        if p.1 then errorPrev "Invalid assignment target." p.2 else p.2
      else s

/-- The `while (precedence <= rule(current).precedence)` loop of
parsePrecedence. -/
def infixLoopF : Nat → Nat → Bool → CState → CState
  | 0, _, _, s => s
  | fuel + 1, prec, canAssign, s =>
    if prec ≤ (getRuleF s.currentTok.ttype).prec then
      let s := advanceF s
      match (getRuleF s.previousTok.ttype).inf with
      | some ifn => infixLoopF fuel prec canAssign (runInfixF fuel ifn canAssign s)
      | none => infixLoopF fuel prec canAssign s
    else s

/-- Dispatch a prefix rule tag (the function-pointer call in C). -/
def runPrefixF : Nat → PAct → Bool → CState → CState
  | 0, _, _, s => s
  | fuel + 1, .grouping, canAssign, s => groupingF fuel canAssign s
  | _ + 1, .number, _, s => numberF s
  | _ + 1, .strLit, _, s => stringLitF s
  | _ + 1, .literal, _, s => literalF s
  | fuel + 1, .varRef, canAssign, s => varRefF fuel canAssign s
  | fuel + 1, .unary, canAssign, s => unaryF fuel canAssign s

/-- Dispatch an infix rule tag. -/
def runInfixF : Nat → IAct → Bool → CState → CState
  | 0, _, _, s => s
  | fuel + 1, .binary, canAssign, s => binaryF fuel canAssign s
  | fuel + 1, .callAct, canAssign, s => callAF fuel canAssign s
  | fuel + 1, .andAct, canAssign, s => andF fuel canAssign s
  | fuel + 1, .orAct, canAssign, s => orF fuel canAssign s

/-- grouping(): parse the inner expression and require `)`. -/
def groupingF : Nat → Bool → CState → CState
  | 0, _, s => s
  | fuel + 1, _, s => consumeF .TOKEN_RIGHT_PAREN "Expect ')' after expression." (expressionF fuel s)

/-- unary(): parse the operand at PREC_UNARY; only `-` emits anything
(OP_NEGATE) — the `!` case falls into the silent default of the switch. -/
def unaryF : Nat → Bool → CState → CState
  | 0, _, s => s
  | fuel + 1, _, s =>
    let opType := s.previousTok.ttype
    let s := parsePrecedenceF fuel PREC_UNARY s
    match opType with
    | .TOKEN_MINUS => emitByteF OP_NEGATE s
    | _ => s

/-- binary(): parse the right operand one level tighter, then emit the
operator's instruction(s); the unreachable default reports "Token not yet
processable.". -/
def binaryF : Nat → Bool → CState → CState
  | 0, _, s => s
  | fuel + 1, _, s =>
    let opType := s.previousTok.ttype
    let rule := getRuleF opType
    let s := parsePrecedenceF fuel (rule.prec + 1) s
    match opType with
    | .TOKEN_BANG_EQUAL => emitBytesF OP_EQUAL OP_NOT s
    | .TOKEN_EQUAL_EQUAL => emitByteF OP_EQUAL s
    | .TOKEN_GREATER => emitByteF OP_GREATER s
    | .TOKEN_GREATER_EQUAL => emitBytesF OP_LESS OP_NOT s
    | .TOKEN_LESS => emitByteF OP_LESS s
    | .TOKEN_LESS_EQUAL => emitBytesF OP_GREATER OP_NOT s
    | .TOKEN_BANG => emitByteF OP_NOT s
    | .TOKEN_PLUS => emitByteF OP_ADD s
    | .TOKEN_MINUS => emitByteF OP_SUBTRACT s
    | .TOKEN_STAR => emitByteF OP_MULTIPLY s
    | .TOKEN_SLASH => emitByteF OP_DIVIDE s
    | _ => errorPrev "Token not yet processable." s

/-- call(): argument list then OP_CALL argc. -/
def callAF : Nat → Bool → CState → CState
  | 0, _, s => s
  | fuel + 1, _, s =>
    let p := argumentListF fuel s
    emitBytesF OP_CALL p.2 p.1

/-- The do-while of argumentList: one expression per iteration, counting
arguments ("Can't have more than 255 arguments." past 255), continuing
after each comma. -/
def argLoopF : Nat → Nat → CState → CState × Nat
  | 0, n, s => (s, n)
  | fuel + 1, n, s =>
    let s := expressionF fuel s
    let s := if n == 255 then errorPrev "Can't have more than 255 arguments." s else s
    let n := n + 1
    let p := matchTokF .TOKEN_COMMA s
    if p.1 then argLoopF fuel n p.2 else (p.2, n)

/-- argumentList(): empty if `)` is next, else the comma loop; then require
`)`. -/
def argumentListF : Nat → CState → CState × Nat
  | 0, s => (s, 0)
  | fuel + 1, s =>
    let p := if checkF .TOKEN_RIGHT_PAREN s then (s, 0) else argLoopF fuel 0 s
    (consumeF .TOKEN_RIGHT_PAREN "Expect ')' after arguments." p.1, p.2)

/-- and_(): JUMP_IF_FALSE over the rest, POP, right operand at PREC_AND,
patch. -/
def andF : Nat → Bool → CState → CState
  | 0, _, s => s
  | fuel + 1, _, s =>
    let p := emitJumpF OP_JUMP_IF_FALSE s
    let s := emitByteF OP_POP p.1
    let s := parsePrecedenceF fuel PREC_AND s
    patchJumpF p.2 s

/-- or_(): JUMP_IF_FALSE to the right operand, JUMP over it, patch the
first, POP, right operand at PREC_OR, patch the second. -/
def orF : Nat → Bool → CState → CState
  | 0, _, s => s
  | fuel + 1, _, s =>
    let pElse := emitJumpF OP_JUMP_IF_FALSE s
    let pEnd := emitJumpF OP_JUMP pElse.1
    let s := patchJumpF pElse.2 pEnd.1
    let s := emitByteF OP_POP s
    let s := parsePrecedenceF fuel PREC_OR s
    patchJumpF pEnd.2 s

/-- variable(): namedVariable on the previous token. -/
def varRefF : Nat → Bool → CState → CState
  | 0, _, s => s
  | fuel + 1, canAssign, s => namedVariableF fuel s.previousTok canAssign s

/-- namedVariable (compiler.c:482): resolve as local, else upvalue, else
global (adding the name to the constant pool); then `=` plus expression
compiles a store, otherwise a load.  The operand is passed through the
`uint8_t` cast. -/
def namedVariableF : Nat → Token → Bool → CState → CState
  | 0, _, _, s => s
  | fuel + 1, name, canAssign, s =>
    let resolved : CState × Nat × Nat :=
      match s.comps with
      | [] => (s, OP_GET_GLOBAL, 0)
      | c :: _ =>
        match resolveLocalF c.locals name.lexeme with
        | some pr =>
          let s := if pr.2 then errorPrev "Can't read local variable in its own initializer" s else s
          (s, OP_GET_LOCAL, pr.1)
        | none =>
          let up := resolveUpvalueF s.comps name.lexeme
          match up.2.1 with
          | some u =>
            let s := { s with comps := up.1 }
            let s := up.2.2.foldl (fun s m => errorPrev m s) s
            (s, OP_GET_UPVALUE, u)
          | none =>
            let s := up.2.2.foldl (fun s m => errorPrev m s) s
            let p := identifierConstantF name s
            (p.1, OP_GET_GLOBAL, p.2)
    let s := resolved.1
    let getOp := resolved.2.1
    let setOp := if getOp == OP_GET_LOCAL then OP_SET_LOCAL
      else if getOp == OP_GET_UPVALUE then OP_SET_UPVALUE else OP_SET_GLOBAL
    let arg := resolved.2.2
    let p := matchTokF .TOKEN_EQUAL s
    if canAssign && p.1 then
      let s := expressionF fuel p.2
      emitBytesF setOp (arg % 256) s
    else emitBytesF getOp (arg % 256) p.2

/-- expression(): parse at PREC_ASSIGNMENT. -/
def expressionF : Nat → CState → CState
  | 0, s => s
  | fuel + 1, s => parsePrecedenceF fuel PREC_ASSIGNMENT s

/-- block(): declarations until `}` or EOF, then require `}`. -/
def blockF : Nat → CState → CState
  | 0, s => s
  | fuel + 1, s =>
    if !checkF .TOKEN_RIGHT_BRACE s && !checkF .TOKEN_EOF s then
      blockF fuel (declarationF fuel s)
    else consumeF .TOKEN_RIGHT_BRACE "Expect '\x7d' after block." s

/-- The parameter do-while of function(): count arity (to at most 255 with
"Can't have more than 255 parameters."), parse and define each parameter,
continue after commas. -/
def paramLoopF : Nat → CState → CState
  | 0, s => s
  | fuel + 1, s =>
    let s := mapComp (fun c => { c with arity := c.arity + 1 }) s
    let s := match s.comps with
      | c :: _ => if c.arity > 255 then errorCur "Can't have more than 255 parameters." s else s
      | [] => s
    let p := parseVariableF "Expect parameter name." s
    let s := defineVariableF p.2 p.1
    let q := matchTokF .TOKEN_COMMA s
    if q.1 then paramLoopF fuel q.2 else q.2

/-- function() (compiler.c:699): fresh compiler, scope, parameter list,
body block; then endCompiler, OP_CLOSURE with the function constant, and
one `(is_local, index)` byte pair per upvalue. -/
def functionF : Nat → FunctionType → CState → CState
  | 0, _, s => s
  | fuel + 1, ty, s =>
    let s := initCompilerF ty s
    let s := beginScopeF s
    let s := consumeF .TOKEN_LEFT_PAREN "Expect '(' after function name." s
    let s := if !checkF .TOKEN_RIGHT_PAREN s then paramLoopF fuel s else s
    let s := consumeF .TOKEN_RIGHT_PAREN "Expect ')' after parameters." s
    let s := consumeF .TOKEN_LEFT_BRACE "Expect '\x7b' before function body." s
    let s := blockF fuel s
    let trip := endCompilerF s
    let p := makeConstantF trip.2.1 trip.1
    let s := emitBytesF OP_CLOSURE p.2 p.1
    trip.2.2.foldl (fun s u => emitByteF u.index (emitByteF (if u.isLocal then 1 else 0) s)) s

/-- funDeclaration: name, eager markInitialized (for recursion), the
function body, then defineVariable. -/
def funDeclarationF : Nat → CState → CState
  | 0, s => s
  | fuel + 1, s =>
    let p := parseVariableF "Expect function name" s
    let s := markInitializedF p.1
    let s := functionF fuel .TYPE_FUNCTION s
    defineVariableF p.2 s

/-- varDeclaration: name, initializer (or OP_NIL), `;`, defineVariable. -/
def varDeclarationF : Nat → CState → CState
  | 0, s => s
  | fuel + 1, s =>
    let p := parseVariableF "Expect variable name." s
    let q := matchTokF .TOKEN_EQUAL p.1
    let s := if q.1 then expressionF fuel q.2 else emitByteF OP_NIL q.2
    let s := consumeF .TOKEN_SEMICOLON "Expect ';' after variable declaration" s
    defineVariableF p.2 s

/-- expressionStatement (compiler.c:755): the expression, then `;`.  This
revision emits no OP_POP after the expression. -/
def expressionStatementF : Nat → CState → CState
  | 0, s => s
  | fuel + 1, s => consumeF .TOKEN_SEMICOLON "Expect ';' after expression." (expressionF fuel s)

/-- ifStatement: condition in parens, JUMP_IF_FALSE over the then branch
(with POPs on both paths), unconditional JUMP over the else branch. -/
def ifStatementF : Nat → CState → CState
  | 0, s => s
  | fuel + 1, s =>
    let s := consumeF .TOKEN_LEFT_PAREN "Expect '(' after 'if'." s
    let s := expressionF fuel s
    let s := consumeF .TOKEN_RIGHT_PAREN "Expect ')' after condition." s
    let pThen := emitJumpF OP_JUMP_IF_FALSE s
    let s := emitByteF OP_POP pThen.1
    let s := statementF fuel s
    let pElse := emitJumpF OP_JUMP s
    let s := patchJumpF pThen.2 pElse.1
    let s := emitByteF OP_POP s
    let q := matchTokF .TOKEN_ELSE s
    let s := if q.1 then statementF fuel q.2 else q.2
    patchJumpF pElse.2 s

/-- whileStatement: loop start, condition in parens, JUMP_IF_FALSE exit,
POP, body, LOOP back, patch exit, POP. -/
def whileStatementF : Nat → CState → CState
  | 0, s => s
  | fuel + 1, s =>
    let loopStart := (curCode s).length
    let s := consumeF .TOKEN_LEFT_PAREN "Expect '(' after 'while'." s
    let s := expressionF fuel s
    let s := consumeF .TOKEN_RIGHT_PAREN "Expect ')' after condition." s
    let pExit := emitJumpF OP_JUMP_IF_FALSE s
    let s := emitByteF OP_POP pExit.1
    let s := statementF fuel s
    let s := emitLoopF loopStart s
    let s := patchJumpF pExit.2 s
    emitByteF OP_POP s

/-- printStatement: expression, `;`, OP_PRINT. -/
def printStatementF : Nat → CState → CState
  | 0, s => s
  | fuel + 1, s =>
    emitByteF OP_PRINT
      (consumeF .TOKEN_SEMICOLON "Expect ';' after statement value." (expressionF fuel s))

/-- returnStatement: an error at script type ("Can't return from top-level
code."); bare `return;` emits NIL+RETURN, otherwise the value then
RETURN. -/
def returnStatementF : Nat → CState → CState
  | 0, s => s
  | fuel + 1, s =>
    let s := match s.comps with
      | c :: _ => if c.ftype = .TYPE_SCRIPT then errorPrev "Can't return from top-level code." s else s
      | [] => s
    let p := matchTokF .TOKEN_SEMICOLON s
    if p.1 then emitReturnF p.2
    else
      let s := expressionF fuel p.2
      let s := consumeF .TOKEN_SEMICOLON "Expect ';' after return value." s
      emitByteF OP_RETURN s

/-- forStatement (compiler.c:820): scoped; initializer clause; optional
condition with exit jump; optional increment threaded with a body jump and
a loop back; body; loop; exit patch. -/
def forStatementF : Nat → CState → CState
  | 0, s => s
  | fuel + 1, s =>
    let s := beginScopeF s
    let s := consumeF .TOKEN_LEFT_PAREN "Expect '(' after 'for'." s
    let p1 := matchTokF .TOKEN_SEMICOLON s
    let s :=
      if p1.1 then p1.2
      else
        let p2 := matchTokF .TOKEN_VAR p1.2
        if p2.1 then varDeclarationF fuel p2.2 else expressionStatementF fuel p2.2
    let loopStart := (curCode s).length
    let pCond := matchTokF .TOKEN_SEMICOLON s
    let condRes : CState × Option Nat :=
      if pCond.1 then (pCond.2, none)
      else
        let s := expressionF fuel pCond.2
        let s := consumeF .TOKEN_SEMICOLON "Expect ';' after loop condition." s
        let pExit := emitJumpF OP_JUMP_IF_FALSE s
        (emitByteF OP_POP pExit.1, some pExit.2)
    let s := condRes.1
    let pRp := matchTokF .TOKEN_RIGHT_PAREN s
    let incRes : CState × Nat :=
      if pRp.1 then (pRp.2, loopStart)
      else
        let pBody := emitJumpF OP_JUMP pRp.2
        let incrementStart := (curCode pBody.1).length
        let s := expressionF fuel pBody.1
        let s := emitByteF OP_POP s
        let s := consumeF .TOKEN_RIGHT_PAREN "Expect ')' after for clauses." s
        let s := emitLoopF loopStart s
        (patchJumpF pBody.2 s, incrementStart)
    let s := statementF fuel incRes.1
    let s := emitLoopF incRes.2 s
    let s := match condRes.2 with
      | some exitJump => emitByteF OP_POP (patchJumpF exitJump s)
      | none => s
    endScopeF s

/-- declaration(): fun / var / statement, then synchronize if panicking. -/
def declarationF : Nat → CState → CState
  | 0, s => s
  | fuel + 1, s =>
    let pf := matchTokF .TOKEN_FUN s
    let s :=
      if pf.1 then funDeclarationF fuel pf.2
      else
        let pv := matchTokF .TOKEN_VAR pf.2
        if pv.1 then varDeclarationF fuel pv.2 else statementF fuel pv.2
    if s.panicMode then synchronizeF s else s

/-- statement(): print / for / if / return / while / block / expression
statement. -/
def statementF : Nat → CState → CState
  | 0, s => s
  | fuel + 1, s =>
    let p1 := matchTokF .TOKEN_PRINT s
    if p1.1 then printStatementF fuel p1.2
    else
      let p2 := matchTokF .TOKEN_FOR p1.2
      if p2.1 then forStatementF fuel p2.2
      else
        let p3 := matchTokF .TOKEN_IF p2.2
        if p3.1 then ifStatementF fuel p3.2
        else
          let p4 := matchTokF .TOKEN_RETURN p3.2
          if p4.1 then returnStatementF fuel p4.2
          else
            let p5 := matchTokF .TOKEN_WHILE p4.2
            if p5.1 then whileStatementF fuel p5.2
            else
              let p6 := matchTokF .TOKEN_LEFT_BRACE p5.2
              if p6.1 then endScopeF (blockF fuel (beginScopeF p6.2))
              else expressionStatementF fuel p6.2

/-- The `while (!match(TOKEN_EOF)) declaration();` loop of compile(). -/
def compileLoopF : Nat → CState → CState
  | 0, s => s
  | fuel + 1, s =>
    let p := matchTokF .TOKEN_EOF s
    if p.1 then p.2 else compileLoopF fuel (declarationF fuel p.2)

end

/-- compile() (compiler.c:927): init the script compiler and the parser
flags, prime the scanner, run declarations to EOF, endCompiler; return the
function unless `hadError` (which this revision never sets). -/
def compileF (fuel : Nat) (toks : List Token) : Option Value × CState :=
  let s : CState :=
    { tokens := toks, currentTok := dummyTok, previousTok := dummyTok,
      hadError := false, panicMode := false, errors := [], comps := [] }
  let s := initCompilerF .TYPE_SCRIPT s
  let s := advanceF s
  let s := compileLoopF fuel s
  let trip := endCompilerF s
  (if trip.1.hadError then none else some trip.2.1, trip.1)

/-- FRAMES_MAX from vm.h: maximum call-frame depth. -/
def FRAMES_MAX : Nat := 64

/-- STACK_MAX from vm.h: `FRAMES_MAX * UINT8_COUNT = 64 * 256`. -/
def STACK_MAX : Nat := 16384

/-- A CallFrame (vm.h): the callee `ObjFunction`'s fields, the instruction
offset `ip` into its chunk (the C code keeps a byte pointer; the offset is
the same information), and `slots`, the stack index of the callee's slot 0.
The stack-reallocation rebase in push/pop (vm.c:87-127) is the identity on
indices. -/
structure Frame where
  fnArity : Nat
  code : List Nat
  consts : List Value
  fnName : Option String
  ip : Nat
  slots : Nat

/-- The VM state: frames (head = innermost), the value stack (index 0 at
the bottom, `stackTop` = length), the globals table, and the values handed
to `printValue` by OP_PRINT, in order.  The intern table and object list
only affect allocation identity, which the content representation of
strings already captures. -/
structure VMS where
  frames : List Frame
  stack : List Value
  globals : List (String × Value)
  printedVals : List Value

/-- push (vm.c:64): beyond STACK_MAX the process dies with "Fatal error:
Stack overflow" (modelled as `none`); otherwise the value lands at
stackTop.  Capacity doubling and the pointer rebase do not change the
index-based state. -/
def pushVal (s : VMS) (v : Value) : Option VMS :=
  if s.stack.length + 1 > STACK_MAX then none
  else some { s with stack := s.stack ++ [v] }

/-- pop (vm.c:109): return the value below stackTop and step stackTop back;
popping an empty stack is undefined behavior (`none`).  The shrink path
only reallocates. -/
def popVal (s : VMS) : Option (Value × VMS) :=
  match s.stack.getLast? with
  | none => none
  | some v => some (v, { s with stack := s.stack.dropLast })

/-- peek(distance): the value `distance` below the top. -/
def peekVal (s : VMS) (distance : Nat) : Option Value :=
  s.stack.get? (s.stack.length - 1 - distance)

/-- valuesEqual as invoked by OP_EQUAL on runtime values: tags, then
payloads; both operands of the object case go through `AS_STRING`, so a
comparison involving a non-string object reinterprets foreign memory —
undefined behavior, `none` here (no program studied here reaches it). -/
def valuesEqualRun : Value → Value → Option Bool
  | .nil, .nil => some true
  | .vbool a, .vbool b => some (a == b)
  | .num a, .num b => some (a == b)
  | .str a, .str b => some (a.length == b.length && a == b)
  | .fn _ _ _ _ _ _, .fn _ _ _ _ _ _ => none
  | .native _, .native _ => none
  | .str _, .fn _ _ _ _ _ _ => none
  | .fn _ _ _ _ _ _, .str _ => none
  | .str _, .native _ => none
  | .native _, .str _ => none
  | .fn _ _ _ _ _ _, .native _ => none
  | .native _, .fn _ _ _ _ _ _ => none
  | _, _ => some false

/-- Modelled from the spec: the one native, `clock()`, returns seconds
since process start (spec §6) — a wall-clock reading with no functional
embedding; no program studied here calls it, and the model returns 0. -/
def nativeResult (tag : String) (argCount : Nat) (args : List Value) : Value :=
  match tag, argCount, args with
  | _, _, _ => .num 0

/-- The result of one dispatch iteration of run(). -/
inductive StepOut where
  | next (s : VMS)
  | okDone (s : VMS)
  | rtError (msg : String) (s : VMS)
  | fatal (msg : String)
  | stuck

/-- runtimeError (vm.c:35): print the message and the frame trace to
stderr, then resetStack (stackTop to the base, frameCount 0).  Globals and
printed output survive. -/
def runtimeErrorV (msg : String) (s : VMS) : StepOut :=
  .rtError msg { s with stack := [], frames := [] }

/-- call (vm.c:135): arity check ("Expected N arguments but got M"), frame
cap ("Stack overflow."), then push a frame whose slots index is
`stackTop - argCount - 1`. -/
def callFn (s : VMS) (arity _upCnt : Nat) (code : List Nat) (consts : List Value)
    (_lines : List Nat) (name : Option String) (argCount : Nat) : StepOut :=
  if argCount ≠ arity then
    runtimeErrorV ("Expected " ++ Nat.repr arity ++ " arguments but got " ++ Nat.repr argCount) s
  else if s.frames.length = FRAMES_MAX then
    runtimeErrorV "Stack overflow." s
  else
    .next { s with frames :=
      { fnArity := arity, code := code, consts := consts, fnName := name,
        ip := 0, slots := s.stack.length - argCount - 1 } :: s.frames }

/-- callValue (vm.c:153): functions go through call; natives run inline,
the stack dropping the arguments and callee and receiving the result;
anything else is "Can only call functions and classes.".  (This revision
dispatches on OBJ_FUNCTION; there is no closure case.) -/
def callValueV (s : VMS) (callee : Value) (argCount : Nat) : StepOut :=
  match callee with
  | .fn arity upCnt code consts lines name =>
    callFn s arity upCnt code consts lines name argCount
  | .native tag =>
    let args := s.stack.drop (s.stack.length - argCount)
    let result := nativeResult tag argCount args
    let s := { s with stack := s.stack.take (s.stack.length - argCount - 1) }
    match pushVal s result with
    | some s => .next s
    | none => .fatal "Fatal error: Stack overflow"
  | _ => runtimeErrorV "Can only call functions and classes." s

/-- Replace the innermost frame. -/
def setTopFrame (s : VMS) (f : Frame) : VMS :=
  { s with frames := match s.frames with
      | [] => []
      | _ :: r => f :: r }

/-- Fetch a chunk byte; reading past the code array is undefined
behavior. -/
def readByteAt (f : Frame) (i : Nat) : Option Nat :=
  f.code.get? i

/-- The OP_CONSTANT case: read the operand byte, fetch the constant, push
it. -/
def stepConstant (s : VMS) (f : Frame) : StepOut :=
  match readByteAt f (f.ip + 1) with
  | none => .stuck
  | some b =>
    match f.consts.get? b with
    | none => .stuck
    | some v =>
      match pushVal (setTopFrame s { f with ip := f.ip + 2 }) v with
      | some s => .next s
      | none => .fatal "Fatal error: Stack overflow"

/-- The OP_NIL case. -/
def stepNil (s : VMS) (f : Frame) : StepOut :=
  match pushVal (setTopFrame s { f with ip := f.ip + 1 }) .nil with
  | some s => .next s
  | none => .fatal "Fatal error: Stack overflow"

/-- The OP_TRUE case. -/
def stepTrue (s : VMS) (f : Frame) : StepOut :=
  match pushVal (setTopFrame s { f with ip := f.ip + 1 }) (.vbool true) with
  | some s => .next s
  | none => .fatal "Fatal error: Stack overflow"

/-- The OP_FALSE case. -/
def stepFalse (s : VMS) (f : Frame) : StepOut :=
  match pushVal (setTopFrame s { f with ip := f.ip + 1 }) (.vbool false) with
  | some s => .next s
  | none => .fatal "Fatal error: Stack overflow"

/-- The OP_POP case. -/
def stepPop (s : VMS) (f : Frame) : StepOut :=
  match popVal (setTopFrame s { f with ip := f.ip + 1 }) with
  | some (_, s) => .next s
  | none => .stuck

/-- The OP_GET_GLOBAL case: READ_STRING, table lookup, "Undefined variable"
on a miss, else push. -/
def stepGetGlobal (s : VMS) (f : Frame) : StepOut :=
  match readByteAt f (f.ip + 1) with
  | none => .stuck
  | some b =>
    match f.consts.get? b with
    | some (.str name) =>
      let s := setTopFrame s { f with ip := f.ip + 2 }
      match tableGet s.globals name with
      | none => runtimeErrorV ("Undefined variable '" ++ name ++ "'.") s
      | some v =>
        match pushVal s v with
        | some s => .next s
        | none => .fatal "Fatal error: Stack overflow"
    | _ => .stuck

/-- The OP_GET_LOCAL case: push `frame.slots[slot]`. -/
def stepGetLocal (s : VMS) (f : Frame) : StepOut :=
  match readByteAt f (f.ip + 1) with
  | none => .stuck
  | some slot =>
    let s := setTopFrame s { f with ip := f.ip + 2 }
    match s.stack.get? (f.slots + slot) with
    | none => .stuck
    | some v =>
      match pushVal s v with
      | some s => .next s
      | none => .fatal "Fatal error: Stack overflow"

/-- The OP_SET_GLOBAL case: tableSet with peek(0); a fresh key is deleted
again and reported as "Undefined variable" (vm.c:291-298). -/
def stepSetGlobal (s : VMS) (f : Frame) : StepOut :=
  match readByteAt f (f.ip + 1) with
  | none => .stuck
  | some b =>
    match f.consts.get? b with
    | some (.str name) =>
      let s := setTopFrame s { f with ip := f.ip + 2 }
      match peekVal s 0 with
      | none => .stuck
      | some v =>
        let p := tableSet s.globals name v
        if p.2 then
          runtimeErrorV ("Undefined variable '" ++ name ++ "'.")
            { s with globals := tableDelete p.1 name }
        else .next { s with globals := p.1 }
    | _ => .stuck

/-- The OP_SET_LOCAL case: `frame.slots[slot] = peek(0)` (no pop). -/
def stepSetLocal (s : VMS) (f : Frame) : StepOut :=
  match readByteAt f (f.ip + 1) with
  | none => .stuck
  | some slot =>
    let s := setTopFrame s { f with ip := f.ip + 2 }
    match peekVal s 0 with
    | none => .stuck
    | some v => .next { s with stack := s.stack.set (f.slots + slot) v }

/-- The OP_DEFINE_GLOBAL case: bind peek(0) (silently replacing any old
binding), then pop. -/
def stepDefineGlobal (s : VMS) (f : Frame) : StepOut :=
  match readByteAt f (f.ip + 1) with
  | none => .stuck
  | some b =>
    match f.consts.get? b with
    | some (.str name) =>
      let s := setTopFrame s { f with ip := f.ip + 2 }
      match peekVal s 0 with
      | none => .stuck
      | some v =>
        let s := { s with globals := (tableSet s.globals name v).1 }
        match popVal s with
        | some (_, s) => .next s
        | none => .stuck
    | _ => .stuck

/-- The OP_EQUAL case: pop b, pop a, push valuesEqual(a, b). -/
def stepEqual (s : VMS) (f : Frame) : StepOut :=
  let s := setTopFrame s { f with ip := f.ip + 1 }
  match popVal s with
  | none => .stuck
  | some (b, s) =>
    match popVal s with
    | none => .stuck
    | some (a, s) =>
      match valuesEqualRun a b with
      | none => .stuck
      | some r =>
        match pushVal s (.vbool r) with
        | some s => .next s
        | none => .fatal "Fatal error: Stack overflow"

/-- The BINARY_OP macro of run(): both operands must be numbers
("Operands must be numbers."), then pop b, pop a, push `mk a b`. -/
def stepBinaryOp (s : VMS) (f : Frame) (mk : Rat → Rat → Value) : StepOut :=
  let s := setTopFrame s { f with ip := f.ip + 1 }
  match peekVal s 0, peekVal s 1 with
  | some (.num b), some (.num a) =>
    let s := { s with stack := (s.stack.dropLast).dropLast }
    match pushVal s (mk a b) with
    | some s => .next s
    | none => .fatal "Fatal error: Stack overflow"
  | some _, some _ => runtimeErrorV "Operands must be numbers." s
  | _, _ => .stuck

/-- The OP_ADD case: string + string concatenates, number + number adds,
anything else is "Operands must be two numbers or two strings.". -/
def stepAdd (s : VMS) (f : Frame) : StepOut :=
  let s := setTopFrame s { f with ip := f.ip + 1 }
  match peekVal s 0, peekVal s 1 with
  | some v0, some v1 =>
    if v0.isString && v1.isString then
      match v0, v1 with
      | .str b, .str a =>
        let s := { s with stack := (s.stack.dropLast).dropLast }
        match pushVal s (.str (a ++ b)) with
        | some s => .next s
        | none => .fatal "Fatal error: Stack overflow"
      | _, _ => .stuck
    else if v0.isNumber && v1.isNumber then
      match v0, v1 with
      | .num b, .num a =>
        let s := { s with stack := (s.stack.dropLast).dropLast }
        match pushVal s (.num (a + b)) with
        | some s => .next s
        | none => .fatal "Fatal error: Stack overflow"
      | _, _ => .stuck
    else runtimeErrorV "Operands must be two numbers or two strings." s
  | _, _ => .stuck

/-- The OP_NOT case: push isFalsey(pop()). -/
def stepNot (s : VMS) (f : Frame) : StepOut :=
  let s := setTopFrame s { f with ip := f.ip + 1 }
  match popVal s with
  | none => .stuck
  | some (v, s) =>
    match pushVal s (.vbool (isFalsey v)) with
    | some s => .next s
    | none => .fatal "Fatal error: Stack overflow"

/-- The OP_NEGATE case: "Operand must be a number." unless numeric. -/
def stepNegate (s : VMS) (f : Frame) : StepOut :=
  let s := setTopFrame s { f with ip := f.ip + 1 }
  match peekVal s 0 with
  | none => .stuck
  | some v =>
    match v with
    | .num a =>
      let s := { s with stack := s.stack.dropLast }
      match pushVal s (.num (-a)) with
      | some s => .next s
      | none => .fatal "Fatal error: Stack overflow"
    | _ => runtimeErrorV "Operand must be a number." s

/-- The OP_PRINT case (vm.c:349-353): printf("[OP_PRINT] "), then
printValue(pop()), then a newline — recorded as the popped value in
`printedVals`, rendered by `stdoutOfPrinted`. -/
def stepPrint (s : VMS) (f : Frame) : StepOut :=
  let s := setTopFrame s { f with ip := f.ip + 1 }
  match popVal s with
  | none => .stuck
  | some (v, s) => .next { s with printedVals := s.printedVals ++ [v] }

/-- The OP_JUMP case: `ip += READ_SHORT()` (big-endian). -/
def stepJump (s : VMS) (f : Frame) : StepOut :=
  match readByteAt f (f.ip + 1), readByteAt f (f.ip + 2) with
  | some hi, some lo => .next (setTopFrame s { f with ip := f.ip + 3 + (hi * 256 + lo) })
  | _, _ => .stuck

/-- The OP_LOOP case: `ip -= READ_SHORT()`. -/
def stepLoop (s : VMS) (f : Frame) : StepOut :=
  match readByteAt f (f.ip + 1), readByteAt f (f.ip + 2) with
  | some hi, some lo => .next (setTopFrame s { f with ip := f.ip + 3 - (hi * 256 + lo) })
  | _, _ => .stuck

/-- The OP_JUMP_IF_FALSE case: jump if peek(0) is falsey; never pops. -/
def stepJumpIfFalse (s : VMS) (f : Frame) : StepOut :=
  match readByteAt f (f.ip + 1), readByteAt f (f.ip + 2) with
  | some hi, some lo =>
    match peekVal s 0 with
    | none => .stuck
    | some v =>
      let target := if isFalsey v then f.ip + 3 + (hi * 256 + lo) else f.ip + 3
      .next (setTopFrame s { f with ip := target })
  | _, _ => .stuck

/-- The OP_CALL case: read argc, advance past the operand, dispatch on
peek(argc) through callValue. -/
def stepCall (s : VMS) (f : Frame) : StepOut :=
  match readByteAt f (f.ip + 1) with
  | none => .stuck
  | some argCount =>
    let s := setTopFrame s { f with ip := f.ip + 2 }
    match peekVal s argCount with
    | none => .stuck
    | some callee => callValueV s callee argCount

/-- The OP_RETURN case (vm.c:378-399): pop the result, drop the frame;
at depth 0 pop once more and finish with INTERPRET_OK, otherwise reset
stackTop to the dropped frame's slots, push the result and continue in
the caller. -/
def stepReturn (s : VMS) (f : Frame) : StepOut :=
  match popVal s with
  | none => .stuck
  | some (result, s) =>
    let s := { s with frames := s.frames.tail }
    if s.frames.isEmpty then
      match popVal s with
      | none => .stuck
      | some (_, s) => .okDone s
    else
      let s := { s with stack := s.stack.take f.slots }
      match pushVal s result with
      | some s => .next s
      | none => .fatal "Fatal error: Stack overflow"

/-- One iteration of the run() dispatch loop (vm.c:257).  `frame` is the
innermost frame; READ_BYTE/READ_SHORT/READ_CONSTANT/READ_STRING advance
`ip` as in the C macros; a 16-bit operand reads big-endian.  Each case of
the C switch is one helper above; an opcode byte with no case falls
through the switch and the loop continues at the next byte — in
particular OP_CLOSURE, OP_GET_UPVALUE, OP_SET_UPVALUE and
OP_CLOSE_UPVALUE have no case in this revision of vm.c.  `AS_STRING` on a
non-string constant and out-of-range reads are undefined behavior
(`stuck`). -/
def step (s : VMS) : StepOut :=
  match s.frames with
  | [] => .stuck
  | f :: _ =>
    match readByteAt f f.ip with
    | none => .stuck
    | some op =>
      if op = OP_CONSTANT then stepConstant s f
      else if op = OP_NIL then stepNil s f
      else if op = OP_TRUE then stepTrue s f
      else if op = OP_FALSE then stepFalse s f
      else if op = OP_POP then stepPop s f
      else if op = OP_GET_GLOBAL then stepGetGlobal s f
      else if op = OP_GET_LOCAL then stepGetLocal s f
      else if op = OP_SET_GLOBAL then stepSetGlobal s f
      else if op = OP_SET_LOCAL then stepSetLocal s f
      else if op = OP_DEFINE_GLOBAL then stepDefineGlobal s f
      else if op = OP_EQUAL then stepEqual s f
      else if op = OP_GREATER then stepBinaryOp s f (fun a b => .vbool (decide (a > b)))
      else if op = OP_LESS then stepBinaryOp s f (fun a b => .vbool (decide (a < b)))
      else if op = OP_ADD then stepAdd s f
      else if op = OP_SUBTRACT then stepBinaryOp s f (fun a b => .num (a - b))
      else if op = OP_MULTIPLY then stepBinaryOp s f (fun a b => .num (a * b))
      else if op = OP_DIVIDE then stepBinaryOp s f (fun a b => .num (a / b))
      else if op = OP_NOT then stepNot s f
      else if op = OP_NEGATE then stepNegate s f
      else if op = OP_PRINT then stepPrint s f
      else if op = OP_JUMP then stepJump s f
      else if op = OP_LOOP then stepLoop s f
      else if op = OP_JUMP_IF_FALSE then stepJumpIfFalse s f
      else if op = OP_CALL then stepCall s f
      else if op = OP_RETURN then stepReturn s f
      else .next (setTopFrame s { f with ip := f.ip + 1 })

/-- The run() loop, fueled. -/
inductive RunRes where
  | ok (s : VMS)
  | rtErr (msg : String) (s : VMS)
  | fatalErr (msg : String)
  | stuckRes
  | noFuel

/-- Iterate `step` until a terminal outcome or the fuel runs out. -/
def runF : Nat → VMS → RunRes
  | 0, _ => .noFuel
  | fuel + 1, s =>
    match step s with
    | .next s => runF fuel s
    | .okDone s => .ok s
    | .rtError msg s => .rtErr msg s
    | .fatal msg => .fatalErr msg
    | .stuck => .stuckRes

/-- The VM state interpret() builds before running: initVM installed the
`clock` native into globals (vm.c:202-209), the compiled script function
was pushed, and `call(function, 0)` created frame 0 with `slots` at the
base. -/
def initialVM (fnv : Value) : VMS :=
  let frames :=
    match fnv with
    | .fn arity _ code consts _ name =>
      [{ fnArity := arity, code := code, consts := consts, fnName := name,
         ip := 0, slots := 0 : Frame }]
    | _ => []
  { frames := frames, stack := [fnv],
    globals := [("clock", .native "clock")], printedVals := [] }

/-- Outcome of interpret(). -/
inductive InterpRes where
  | iOk (s : VMS)
  | iCompileErr (s : CState)
  | iRtErr (msg : String) (s : VMS)
  | iFatal (msg : String)
  | iStuck
  | iNoFuel

/-- interpret (vm.c:411): compile (INTERPRET_COMPILER_ERROR on `NULL`),
push the script function, call it, run. -/
def interpretF (cfuel rfuel : Nat) (toks : List Token) : InterpRes :=
  match compileF cfuel toks with
  | (none, s) => .iCompileErr s
  | (some fnv, _) =>
    match runF rfuel (initialVM fnv) with
    | .ok s => .iOk s
    | .rtErr msg s => .iRtErr msg s
    | .fatalErr msg => .iFatal msg
    | .stuckRes => .iStuck
    | .noFuel => .iNoFuel

/-- The stdout text of the OP_PRINT executions in a run: each prints the
literal tag `"[OP_PRINT] "`, then the value, then a newline
(vm.c:349-353). -/
def stdoutOfPrinted (vals : List Value) : List String :=
  vals.map (fun v => "[OP_PRINT] " ++ renderValue v ++ "\n")

/-- The printed values of an interpret outcome (empty when compilation
failed or the machine got stuck before any state was produced). -/
def resPrinted : InterpRes → List Value
  | .iOk s => s.printedVals
  | .iRtErr _ s => s.printedVals
  | _ => []

/-- The runtime-error message of an interpret outcome, if any. -/
def resMsg : InterpRes → Option String
  | .iRtErr msg _ => some msg
  | _ => none

/-- Whether interpret finished with INTERPRET_OK. -/
def resIsOk : InterpRes → Bool
  | .iOk _ => true
  | _ => false

/-- The final globals of a finished run. -/
def resGlobals : InterpRes → List (String × Value)
  | .iOk s => s.globals
  | .iRtErr _ s => s.globals
  | _ => []

/-- Build a token on line 1 (all test programs are one-liners). -/
def tok (ty : TokenType) (lx : String) : Token := ⟨ty, lx, 1⟩

/-- Token stream of
`fun make(){ var i=0; fun inc(){ i=i+1; return i; } return inc; }
var c = make(); print c(); print c();`
(spec §8, Closures).  The scanner is external (spec §1); tokenizing this
source is immediate from the token-type inventory of §4.1. -/
def c1Toks : List Token :=
  [tok .TOKEN_FUN "fun", tok .TOKEN_IDENTIFIER "make", tok .TOKEN_LEFT_PAREN "(",
   tok .TOKEN_RIGHT_PAREN ")", tok .TOKEN_LEFT_BRACE "\x7b",
   tok .TOKEN_VAR "var", tok .TOKEN_IDENTIFIER "i", tok .TOKEN_EQUAL "=",
   tok .TOKEN_NUMBER "0", tok .TOKEN_SEMICOLON ";",
   tok .TOKEN_FUN "fun", tok .TOKEN_IDENTIFIER "inc", tok .TOKEN_LEFT_PAREN "(",
   tok .TOKEN_RIGHT_PAREN ")", tok .TOKEN_LEFT_BRACE "\x7b",
   tok .TOKEN_IDENTIFIER "i", tok .TOKEN_EQUAL "=", tok .TOKEN_IDENTIFIER "i",
   tok .TOKEN_PLUS "+", tok .TOKEN_NUMBER "1", tok .TOKEN_SEMICOLON ";",
   tok .TOKEN_RETURN "return", tok .TOKEN_IDENTIFIER "i", tok .TOKEN_SEMICOLON ";",
   tok .TOKEN_RIGHT_BRACE "\x7d",
   tok .TOKEN_RETURN "return", tok .TOKEN_IDENTIFIER "inc", tok .TOKEN_SEMICOLON ";",
   tok .TOKEN_RIGHT_BRACE "\x7d",
   tok .TOKEN_VAR "var", tok .TOKEN_IDENTIFIER "c", tok .TOKEN_EQUAL "=",
   tok .TOKEN_IDENTIFIER "make", tok .TOKEN_LEFT_PAREN "(", tok .TOKEN_RIGHT_PAREN ")",
   tok .TOKEN_SEMICOLON ";",
   tok .TOKEN_PRINT "print", tok .TOKEN_IDENTIFIER "c", tok .TOKEN_LEFT_PAREN "(",
   tok .TOKEN_RIGHT_PAREN ")", tok .TOKEN_SEMICOLON ";",
   tok .TOKEN_PRINT "print", tok .TOKEN_IDENTIFIER "c", tok .TOKEN_LEFT_PAREN "(",
   tok .TOKEN_RIGHT_PAREN ")", tok .TOKEN_SEMICOLON ";", tok .TOKEN_EOF ""]

/-- Token stream of `false and f();`. -/
def c2Toks : List Token :=
  [tok .TOKEN_FALSE "false", tok .TOKEN_AND "and", tok .TOKEN_IDENTIFIER "f",
   tok .TOKEN_LEFT_PAREN "(", tok .TOKEN_RIGHT_PAREN ")", tok .TOKEN_SEMICOLON ";",
   tok .TOKEN_EOF ""]

/-- Token stream of the expression statement `1;`. -/
def c3Toks : List Token :=
  [tok .TOKEN_NUMBER "1", tok .TOKEN_SEMICOLON ";", tok .TOKEN_EOF ""]

/-- Token stream of `print 1+2*3;` (spec §8, scenario 1). -/
def c5Toks : List Token :=
  [tok .TOKEN_PRINT "print", tok .TOKEN_NUMBER "1", tok .TOKEN_PLUS "+",
   tok .TOKEN_NUMBER "2", tok .TOKEN_STAR "*", tok .TOKEN_NUMBER "3",
   tok .TOKEN_SEMICOLON ";", tok .TOKEN_EOF ""]

/-- Token stream of `var a = 1; var a = 2; print a;`. -/
def c10Toks : List Token :=
  [tok .TOKEN_VAR "var", tok .TOKEN_IDENTIFIER "a", tok .TOKEN_EQUAL "=",
   tok .TOKEN_NUMBER "1", tok .TOKEN_SEMICOLON ";",
   tok .TOKEN_VAR "var", tok .TOKEN_IDENTIFIER "a", tok .TOKEN_EQUAL "=",
   tok .TOKEN_NUMBER "2", tok .TOKEN_SEMICOLON ";",
   tok .TOKEN_PRINT "print", tok .TOKEN_IDENTIFIER "a", tok .TOKEN_SEMICOLON ";",
   tok .TOKEN_EOF ""]

/-- The chunk code of a compiled script function. -/
def scriptCodeOf : Option Value → List Nat
  | some (.fn _ _ code _ _ _) => code
  | _ => []

/-- The compiled script function of a token stream (nil if compilation
returned NULL). -/
def scriptFnOf (fuel : Nat) (toks : List Token) : Value :=
  ((compileF fuel toks).1).getD .nil

/-- Take `n` `next`-steps of the VM, if the machine stays live that long. -/
def stepN : Nat → VMS → Option VMS
  | 0, s => some s
  | n + 1, s =>
    match step s with
    | .next s' => stepN n s'
    | _ => none

/-- The per-state bound of spec §3: at most 64 frames and at most
`64 * 256 = 16384` value-stack slots. -/
def StackInv (s : VMS) : Prop :=
  s.frames.length ≤ FRAMES_MAX ∧ s.stack.length ≤ STACK_MAX

/-- Reachability inside run(): the reflexive-transitive closure of
single-dispatch steps. -/
def Reaches (a b : VMS) : Prop :=
  Relation.ReflTransGen (fun x y => step x = .next y) a b

/-- An empty compiler frame (a freshly initialized script chunk with the
locals slot 0, as initCompiler leaves it). -/
def emptyComp : CompFrame :=
  { ftype := .TYPE_SCRIPT, fname := none, arity := 0, code := [], lines := [],
    constants := [], locals := [⟨⟨.TOKEN_IDENTIFIER, "", 0⟩, 0, false⟩],
    scopeDepth := 0, upvalues := [] }

/-- A compiler state whose current chunk already holds 256 constants, the
situation the constant-limit claim is about. -/
def state256 : CState :=
  { tokens := [], currentTok := dummyTok, previousTok := dummyTok,
    hadError := false, panicMode := false, errors := [],
    comps := [{ emptyComp with constants := List.replicate 256 (Value.num 0) }] }

/-- A bare compiler state over one empty chunk (for exercising emitJump and
patchJump). -/
def jState : CState :=
  { tokens := [], currentTok := dummyTok, previousTok := dummyTok,
    hadError := false, panicMode := false, errors := [], comps := [emptyComp] }

/-- The chunk of jState after `emitJump(OP_JUMP_IF_FALSE)` and one more
emitted byte (OP_POP). -/
def jComp2 : CompFrame :=
  { emptyComp with
    code := [OP_JUMP_IF_FALSE, 255, 255, OP_POP],
    lines := [0, 0, 0, 0] }

/-- jState over that chunk, the shape `patchJump` is applied to. -/
def jState2 : CState :=
  { jState with comps := [jComp2] }

/-- A VM state about to execute OP_PRINT on a stack holding the number 7. -/
def printState : VMS :=
  { frames := [{ fnArity := 0, code := [OP_PRINT], consts := [], fnName := none,
                 ip := 0, slots := 0 }],
    stack := [.num 7], globals := [], printedVals := [] }

/-- A VM state about to execute `SET_GLOBAL "x"` with no binding for
`"x"`. -/
def setGState : VMS :=
  { frames := [{ fnArity := 0, code := [OP_SET_GLOBAL, 0], consts := [.str "x"],
                 fnName := none, ip := 0, slots := 0 }],
    stack := [.num 5], globals := [("clock", .native "clock")], printedVals := [] }

/-- A call frame sitting on `CALL 0` with a zero-arity function as the
callee. -/
def callFrame : Frame :=
  { fnArity := 0, code := [OP_CALL, 0], consts := [], fnName := none,
    ip := 0, slots := 0 }

/-- A VM state with the frame stack full (64 frames) and a zero-arity
function about to be called. -/
def fullState : VMS :=
  { frames := List.replicate 64 callFrame,
    stack := [.fn 0 0 [OP_CALL, 0] [] [] none],
    globals := [], printedVals := [] }

theorem errorAt_comps (t : Token) (m : String) (s : CState) :
    (errorAt t m s).comps = s.comps := by
  unfold errorAt; split <;> rfl

theorem advanceGo_comps : ∀ (ts : List Token) (s : CState),
    (advanceGo ts s).comps = s.comps
  | [], _ => rfl
  | t :: r, s => by
    simp only [advanceGo]
    split
    · rw [advanceGo_comps r]
      exact errorAt_comps _ _ _
    · rfl

theorem advanceF_comps (s : CState) : (advanceF s).comps = s.comps := by
  unfold advanceF; rw [advanceGo_comps]

theorem consumeF_comps (ty : TokenType) (m : String) (s : CState) :
    (consumeF ty m s).comps = s.comps := by
  unfold consumeF; split
  · exact advanceF_comps _
  · exact errorAt_comps _ _ _

theorem makeConstantF_locals (v : Value) (s : CState) :
    ((makeConstantF v s).1).comps.map (fun fr => fr.locals)
      = s.comps.map (fun fr => fr.locals) := by
  unfold makeConstantF
  cases hc : s.comps with
  | nil => simp [hc]
  | cons c r =>
    simp only [addConstantC]
    have hlt : c.constants.length % 65536 < 65536 := Nat.mod_lt _ (by norm_num)
    rw [if_neg (by omega)]
    simp [hc]

theorem tableSet_snd_true_iff (g : List (String × Value)) (k : String) (v : Value) :
    (tableSet g k v).2 = true ↔ tableGet g k = none := by
  induction g with
  | nil => simp [tableSet, tableGet]
  | cons hd tl ih =>
    obtain ⟨k', v'⟩ := hd
    by_cases h : k' = k
    · simp [tableSet, tableGet, h]
    · simp [tableSet, tableGet, h, ih]

theorem tableDelete_tableSet_of_none (g : List (String × Value)) (k : String) (v : Value)
    (h : tableGet g k = none) : tableDelete (tableSet g k v).1 k = g := by
  induction g with
  | nil => simp [tableSet, tableDelete]
  | cons hd tl ih =>
    obtain ⟨k', v'⟩ := hd
    by_cases hk : k' = k
    · simp [tableGet, hk] at h
    · simp only [tableGet, if_neg hk] at h
      simp [tableSet, tableDelete, hk, ih h]

theorem tableGet_tableSet_self (g : List (String × Value)) (k : String) (v : Value) :
    tableGet (tableSet g k v).1 k = some v := by
  induction g with
  | nil => simp [tableSet, tableGet]
  | cons hd tl ih =>
    obtain ⟨k', v'⟩ := hd
    by_cases hk : k' = k
    · simp [tableSet, tableGet, hk]
    · simp [tableSet, tableGet, hk, ih]

/-- C1: For the closure program `fun make(){ var i=0; fun inc(){ i=i+1;
return i; } return inc; } var c = make(); print c(); print c();` the claim
says interpret succeeds and prints 1 then 2, with the CLOSURE instruction
building and pushing a Closure.  In this revision of vm.c the run() switch
has no OP_CLOSURE case at all (nor OP_GET_UPVALUE/OP_SET_UPVALUE, and
callValue dispatches only on OBJ_FUNCTION/OBJ_NATIVE), so the CLOSURE
opcode emitted by the compiler falls through the switch: the program
compiles without error, prints nothing, and interpret ends in the runtime
error "Stack overflow." instead of printing 1 and 2. -/
theorem claim_C1_closure_instruction_unsupported :
    (compileF 200 c1Toks).2.errors = []
    ∧ (scriptCodeOf (compileF 200 c1Toks).1).head? = some OP_CLOSURE
    ∧ resMsg (interpretF 200 1000 c1Toks) = some "Stack overflow."
    ∧ resPrinted (interpretF 200 1000 c1Toks) = []
    ∧ resIsOk (interpretF 200 1000 c1Toks) = false :=
  ⟨rfl, rfl, rfl, rfl, rfl⟩

/-- C2: The claim says `and`/`or` parse as infix operators at the AND and
OR precedence rungs with short-circuit jump sequences.  The rules table of
this revision gives TOKEN_AND and TOKEN_OR precedence PREC_NONE
(compiler.c:550,558), so parsePrecedence's infix loop never fires for them:
compiling `false and f();` emits no jump at all, reports "Expect ';' after
expression." at 'and', and (since errorAt never sets hadError) still
returns a chunk containing only the `false` literal. -/
theorem claim_C2_and_or_have_prec_none :
    (getRuleF .TOKEN_AND).prec = PREC_NONE
    ∧ (getRuleF .TOKEN_OR).prec = PREC_NONE
    ∧ (compileF 100 c2Toks).2.errors
        = ["[line 1] Error at 'and': Expect ';' after expression."]
    ∧ scriptCodeOf (compileF 100 c2Toks).1 = [OP_FALSE, OP_NIL, OP_RETURN]
    ∧ OP_JUMP_IF_FALSE ∉ scriptCodeOf (compileF 100 c2Toks).1 := by
  refine ⟨rfl, rfl, rfl, rfl, ?_⟩
  decide

/-- C3: The claim says every expression statement compiles to the
expression followed by one POP, leaving the stack height unchanged.  This
revision's expressionStatement (compiler.c:755-758) emits no POP: `1;`
compiles to CONSTANT/NIL/RETURN with no OP_POP anywhere, and executing the
statement's first instruction raises the stack from 1 slot (the script
function) to 2. -/
theorem claim_C3_expression_statement_missing_pop :
    scriptCodeOf (compileF 100 c3Toks).1 = [OP_CONSTANT, 0, OP_NIL, OP_RETURN]
    ∧ OP_POP ∉ scriptCodeOf (compileF 100 c3Toks).1
    ∧ (initialVM (scriptFnOf 100 c3Toks)).stack.length = 1
    ∧ (stepN 1 (initialVM (scriptFnOf 100 c3Toks))).map (fun s => s.stack.length)
        = some 2 := by
  refine ⟨rfl, ?_, rfl, rfl⟩
  decide

/-- C10: Re-declaring a global is never an error: parseVariable returns the
constant index before ever reaching declareVariable when scopeDepth is 0
(so no compiler-frame locals change), and DEFINE_GLOBAL's tableSet silently
replaces an existing binding; `var a = 1; var a = 2; print a;` compiles
without error, runs to INTERPRET_OK, prints the value 2 (rendered "2"),
and leaves the global `a` bound to 2. -/
theorem claim_C10_global_redeclaration_allowed :
    (compileF 100 c10Toks).2.errors = []
    ∧ resIsOk (interpretF 100 100 c10Toks) = true
    ∧ (resPrinted (interpretF 100 100 c10Toks)).map renderValue = ["2"]
    ∧ tableGet (resGlobals (interpretF 100 100 c10Toks)) "a" = some (.num 2)
    ∧ (∀ (s : CState) (msg : String) (c : CompFrame) (cs : List CompFrame),
        s.comps = c :: cs → c.scopeDepth = 0 →
        ((parseVariableF msg s).1).comps.map (fun fr => fr.locals)
          = s.comps.map (fun fr => fr.locals)) := by
  refine ⟨rfl, rfl, rfl, rfl, ?_⟩
  intro s msg c cs hc hd
  unfold parseVariableF
  have h1 : (consumeF .TOKEN_IDENTIFIER msg s).comps = s.comps := consumeF_comps _ _ _
  simp only [h1, hc, hd, beq_self_eq_true, if_true]
  unfold identifierConstantF
  rw [makeConstantF_locals, h1, hc]

/-- C4 counterexample: valuesEqual applied to two object values with
distinct handles but equal string content returns true, so "for every pair
of object values returns true iff the two are the same handle" fails as
stated — the code compares content (length plus memcmp), not handles. -/
theorem claim_C4_counterexample :
    ¬ ((valuesEqual (.obj 0 "x") (.obj 1 "x") = true) ↔
        HValue.handleOf (.obj 0 "x") = HValue.handleOf (.obj 1 "x")) := by
  decide

/-- C4 (amended): valuesEqual returns false whenever the tags differ,
true for `nil == nil`, compares booleans and numbers by payload, and
compares object values by their string content; when the two objects are
interned strings (equal content and equal handle determine each other),
the content comparison coincides with handle identity. -/
theorem claim_C4_valuesEqual_by_content :
    (∀ a b : HValue, a.tagOf ≠ b.tagOf → valuesEqual a b = false)
    ∧ valuesEqual .nil .nil = true
    ∧ (∀ x y : Bool, valuesEqual (.vbool x) (.vbool y) = (x == y))
    ∧ (∀ p q : Rat, valuesEqual (.num p) (.num q) = (p == q))
    ∧ (∀ (h1 : Nat) (s1 : String) (h2 : Nat) (s2 : String),
        valuesEqual (.obj h1 s1) (.obj h2 s2) = (s1 == s2))
    ∧ (∀ (h1 : Nat) (s1 : String) (h2 : Nat) (s2 : String),
        (s1 = s2 → h1 = h2) → (h1 = h2 → s1 = s2) →
        (valuesEqual (.obj h1 s1) (.obj h2 s2) = true ↔ h1 = h2)) := by
  have hobj : ∀ (h1 : Nat) (s1 : String) (h2 : Nat) (s2 : String),
      valuesEqual (.obj h1 s1) (.obj h2 s2) = (s1 == s2) := by
    intro h1 s1 h2 s2
    by_cases h : s1 = s2
    · subst h; simp [valuesEqual]
    · simp [valuesEqual, h]
  refine ⟨?_, rfl, ?_, ?_, hobj, ?_⟩
  · intro a b h
    cases a <;> cases b <;> first
      | rfl
      | exact absurd rfl h
  · intro x y; cases x <;> cases y <;> rfl
  · intro p q; rfl
  · intro h1 s1 h2 s2 hContent hHandle
    rw [hobj]
    constructor
    · intro he
      exact hContent (by simpa using he)
    · intro he
      simp [hHandle he]

/-- C4 witness: the amended biconditional at interned equal strings. -/
theorem claim_C4_witness :
    valuesEqual (.obj 3 "ab") (.obj 3 "ab") = true :=
  ((claim_C4_valuesEqual_by_content.2.2.2.2.2) 3 "ab" 3 "ab"
    (fun _ => rfl) (fun _ => rfl)).mpr rfl

/-- C5 counterexample: interpreting `print 1+2*3;` writes the line
`[OP_PRINT] 7`, not the line `7`: the PRINT case of run() (vm.c:349-353)
prints the literal tag `[OP_PRINT] ` before the value, so the claim's
"nothing else" fails. -/
theorem claim_C5_counterexample :
    stdoutOfPrinted (resPrinted (interpretF 100 100 c5Toks)) = ["[OP_PRINT] 7\n"]
    ∧ (["[OP_PRINT] 7\n"] : List String) ≠ ["7\n"] := by
  refine ⟨by decide, by decide⟩

/-- C5 (amended): executing PRINT pops the top value and writes
`[OP_PRINT] `, then the rendering of that value, then a newline to stdout;
interpreting `print 1+2*3;` therefore produces the single output line
`[OP_PRINT] 7`. -/
theorem claim_C5_print_pops_and_prefixes (s : VMS) (f : Frame) (fs : List Frame)
    (stk : List Value) (v : Value)
    (hf : s.frames = f :: fs) (hop : f.code.get? f.ip = some OP_PRINT)
    (hstk : s.stack = stk ++ [v]) :
    step s = .next { s with
      frames := { f with ip := f.ip + 1 } :: fs, stack := stk,
      printedVals := s.printedVals ++ [v] }
    ∧ stdoutOfPrinted (s.printedVals ++ [v])
        = stdoutOfPrinted s.printedVals ++ ["[OP_PRINT] " ++ renderValue v ++ "\n"]
    ∧ stdoutOfPrinted (resPrinted (interpretF 100 100 c5Toks)) = ["[OP_PRINT] 7\n"] := by
  refine ⟨?_, by simp [stdoutOfPrinted], by decide⟩
  unfold step
  rw [hf]
  simp only [readByteAt, hop, OP_PRINT, OP_CONSTANT, OP_NIL, OP_TRUE, OP_FALSE,
    OP_POP, OP_GET_GLOBAL, OP_GET_LOCAL, OP_SET_GLOBAL, OP_SET_LOCAL,
    OP_DEFINE_GLOBAL, OP_EQUAL, OP_GREATER, OP_LESS, OP_ADD, OP_SUBTRACT,
    OP_MULTIPLY, OP_DIVIDE, OP_NOT, OP_NEGATE, Nat.reduceEqDiff, reduceIte]
  simp [stepPrint, setTopFrame, popVal, hf, hstk, List.getLast?_concat, List.dropLast_concat]

/-- The frame of printState. -/
def printFrame : Frame :=
  { fnArity := 0, code := [OP_PRINT], consts := [], fnName := none, ip := 0, slots := 0 }

/-- C5 witness: the PRINT step applied at a concrete state holding 7. -/
theorem claim_C5_witness :
    step printState = .next { printState with
      frames := [{ printFrame with ip := printFrame.ip + 1 }], stack := ([] : List Value),
      printedVals := printState.printedVals ++ [.num 7] } :=
  (claim_C5_print_pops_and_prefixes printState printFrame []
    [] (.num 7) rfl rfl rfl).1

/-- C6: The claim says a 257th constant makes the compiler fail with "Too
many constants".  makeConstant's guard compares its `uint16_t` result
against `UINT16_MAX`, which can never hold, so no overflow report is ever
issued (first conjunct: makeConstant preserves the error list and the
hadError flag on every state); concretely, emitting a constant into a
chunk that already holds 256 constants reports nothing and emits
`CONSTANT 0` — the operand byte 256 mod 256 — addressing constant 0
instead of the intended entry 256. -/
theorem claim_C6_constant_limit_unenforced :
    (∀ (s : CState) (v : Value),
        ((makeConstantF v s).1).errors = s.errors
        ∧ ((makeConstantF v s).1).hadError = s.hadError)
    ∧ (emitConstantF (.num 7) state256).errors = []
    ∧ curCode (emitConstantF (.num 7) state256) = [OP_CONSTANT, 0]
    ∧ ((emitConstantF (.num 7) state256).comps.head?.map (fun c => c.constants.length))
        = some 257 := by
  refine ⟨?_, rfl, rfl, rfl⟩
  intro s v
  unfold makeConstantF
  cases hc : s.comps with
  | nil => exact ⟨rfl, rfl⟩
  | cons c r =>
    simp only [addConstantC]
    have hlt : c.constants.length % 65536 < 65536 := Nat.mod_lt _ (by norm_num)
    rw [if_neg (by omega)]
    exact ⟨rfl, rfl⟩

/-- C10 witness: parseVariable at global scope on a concrete state leaves
the locals of every compiler untouched. -/
theorem claim_C10_witness :
    ((parseVariableF "Expect variable name." jState).1).comps.map (fun fr => fr.locals)
      = jState.comps.map (fun fr => fr.locals) :=
  claim_C10_global_redeclaration_allowed.2.2.2.2 jState "Expect variable name."
    emptyComp [] rfl rfl

theorem get?_set_self {α : Type} (l : List α) (i : Nat) (a : α) (h : i < l.length) :
    (l.set i a).get? i = some a := by
  induction l generalizing i with
  | nil => simp at h
  | cons hd tl ih =>
    cases i with
    | zero => rfl
    | succ j => simpa using ih j (by simpa using h)

theorem get?_set_ne {α : Type} (l : List α) (i j : Nat) (a : α) (h : i ≠ j) :
    (l.set i a).get? j = l.get? j := by
  induction l generalizing i j with
  | nil => simp
  | cons hd tl ih =>
    cases i with
    | zero => cases j with
      | zero => exact absurd rfl h
      | succ k => rfl
    | succ i' => cases j with
      | zero => rfl
      | succ k => simpa using ih i' k (by omega)

/-- C9: emitJump reserves two bytes and returns the offset of the first
(`count - 2`, i.e. one past the instruction byte); a later patchJump at
that offset writes `jump = count - offset - 2` into the two bytes high
byte first, so that decoding the 16-bit big-endian operand at the offset
gives exactly that distance and the jump target `offset + 2 + jump` is the
code count at patch time; a distance above 65535 is reported as "Too much
code to jump over." (routed through errorAt, so visible when the parser is
not already panicking). -/
theorem claim_C9_emitjump_patchjump (s : CState) (c : CompFrame) (cs : List CompFrame)
    (instr : Nat) (o : Nat)
    (hc : s.comps = c :: cs)
    (ho : (emitJumpF instr s).2 = o)
    (s2 : CState) (c2 : CompFrame) (cs2 : List CompFrame) (ext : List Nat)
    (hc2 : s2.comps = c2 :: cs2)
    (hcode : c2.code = c.code ++ [instr % 256, 255, 255] ++ ext)
    (jump : Nat) (hj : jump = c2.code.length - o - 2) :
    o = c.code.length + 1
    ∧ curCode (emitJumpF instr s).1 = c.code ++ [instr % 256, 255, 255]
    ∧ (jump ≤ 65535 →
        ((curCode (patchJumpF o s2)).get? o).getD 0 * 256
            + ((curCode (patchJumpF o s2)).get? (o + 1)).getD 0 = jump
        ∧ (patchJumpF o s2).errors = s2.errors
        ∧ o + 2 + jump = c2.code.length)
    ∧ (jump > 65535 → s2.panicMode = false →
        (patchJumpF o s2).errors
          = s2.errors ++ [errorText s2.previousTok "Too much code to jump over."]) := by
  have hemit : curCode (emitJumpF instr s).1 = c.code ++ [instr % 256, 255, 255] := by
    simp [emitJumpF, emitByteF, mapComp, curCode, hc]
  have hov : o = c.code.length + 1 := by
    have h2 : (emitJumpF instr s).2 = (curCode (emitJumpF instr s).1).length - 2 := rfl
    rw [← ho, h2, hemit]
    simp [List.length_append]
  have hcc2 : curCode s2 = c2.code := by simp [curCode, hc2]
  have hlen : c2.code.length = c.code.length + 3 + ext.length := by
    simp [hcode]
    omega
  have hjv : (curCode s2).length - o - 2 = jump := by rw [hcc2, ← hj]
  have hole : o + 2 ≤ c2.code.length := by omega
  refine ⟨hov, hemit, ?_, ?_⟩
  · intro hle
    have hnoerr : ¬ ((curCode s2).length - o - 2 > 65535) := by omega
    constructor
    · have hget : curCode (patchJumpF o s2)
          = (c2.code.set o (jump / 256 % 256)).set (o + 1) (jump % 256) := by
        simp only [patchJumpF]
        rw [if_neg hnoerr, hjv]
        simp [curCode, mapComp, hc2]
      rw [hget]
      have h1 : ((c2.code.set o (jump / 256 % 256)).set (o + 1) (jump % 256)).get? o
          = some (jump / 256 % 256) := by
        rw [get?_set_ne _ _ _ _ (by omega), get?_set_self _ _ _ (by omega)]
      have h2 : ((c2.code.set o (jump / 256 % 256)).set (o + 1) (jump % 256)).get? (o + 1)
          = some (jump % 256) := by
        rw [get?_set_self]
        simp only [List.length_set]
        omega
      rw [h1, h2]
      simp only [Option.getD_some]
      omega
    · constructor
      · simp only [patchJumpF]
        rw [if_neg hnoerr]
        simp [mapComp]
      · omega
  · intro hgt hpanic
    have herr : (curCode s2).length - o - 2 > 65535 := by omega
    simp only [patchJumpF]
    rw [if_pos herr]
    simp [mapComp, errorPrev, errorAt, hpanic]

/-- C9 witness: a concrete JUMP_IF_FALSE emitted into an empty chunk and
patched after one more byte: the decoded operand is the distance 1 and the
target is the code count 4. -/
theorem claim_C9_witness :
    ((curCode (patchJumpF 1 jState2)).get? 1).getD 0 * 256
        + ((curCode (patchJumpF 1 jState2)).get? 2).getD 0 = 1
    ∧ (patchJumpF 1 jState2).errors = jState2.errors
    ∧ 1 + 2 + 1 = jComp2.code.length :=
  (claim_C9_emitjump_patchjump jState emptyComp [] OP_JUMP_IF_FALSE 1 rfl rfl
    jState2 jComp2 [] [OP_POP] rfl rfl 1 rfl).2.2.1 (by norm_num)

/-- C7: SET_GLOBAL on a name with no binding inserts it (tableSet returns
isNewKey = true), deletes it again, and raises the runtime error
"Undefined variable 'name'." — the globals mapping in the error state is
exactly the original one; on a bound name the binding is updated to the
top-of-stack value, which stays on the stack (no pop). -/
theorem claim_C7_set_global_insert_delete (s : VMS) (f : Frame) (fs : List Frame)
    (b : Nat) (name : String) (v : Value) (stk : List Value)
    (hf : s.frames = f :: fs)
    (hop : f.code.get? f.ip = some OP_SET_GLOBAL)
    (hb : f.code.get? (f.ip + 1) = some b)
    (hcn : f.consts.get? b = some (.str name))
    (hstk : s.stack = stk ++ [v]) :
    (tableGet s.globals name = none →
        step s = .rtError ("Undefined variable '" ++ name ++ "'.")
          { s with frames := ([] : List Frame), stack := ([] : List Value) }
        ∧ tableDelete (tableSet s.globals name v).1 name = s.globals)
    ∧ (∀ w, tableGet s.globals name = some w →
        step s = .next { s with
          frames := { f with ip := f.ip + 2 } :: fs,
          globals := (tableSet s.globals name v).1 }
        ∧ tableGet (tableSet s.globals name v).1 name = some v
        ∧ ({ s with
              frames := { f with ip := f.ip + 2 } :: fs,
              globals := (tableSet s.globals name v).1 } : VMS).stack = s.stack) := by
  have hpeek : peekVal (setTopFrame s { f with ip := f.ip + 2 }) 0 = some v := by
    simp [peekVal, setTopFrame, hstk, hf]
  have hstep : ∀ r : StepOut,
      ((match peekVal (setTopFrame s { f with ip := f.ip + 2 }) 0 with
        | none => StepOut.stuck
        | some v =>
          if (tableSet s.globals name v).2 then
            runtimeErrorV ("Undefined variable '" ++ name ++ "'.")
              { setTopFrame s { f with ip := f.ip + 2 } with
                globals := tableDelete (tableSet s.globals name v).1 name }
          else
            StepOut.next { setTopFrame s { f with ip := f.ip + 2 } with
              globals := (tableSet s.globals name v).1 }) = r)
      → step s = r := by
    intro r hr
    unfold step
    rw [hf]
    simp only [readByteAt, hop, OP_PRINT, OP_CONSTANT, OP_NIL, OP_TRUE,
      OP_FALSE, OP_POP, OP_GET_GLOBAL, OP_GET_LOCAL, OP_SET_GLOBAL, OP_SET_LOCAL,
      OP_DEFINE_GLOBAL, OP_EQUAL, OP_GREATER, OP_LESS, OP_ADD, OP_SUBTRACT,
      OP_MULTIPLY, OP_DIVIDE, OP_NOT, OP_NEGATE, Nat.reduceEqDiff, reduceIte]
    unfold stepSetGlobal
    simp only [readByteAt, hb, hcn]
    exact hr
  constructor
  · intro hnone
    have h2 : (tableSet s.globals name v).2 = true :=
      (tableSet_snd_true_iff _ _ _).mpr hnone
    have h3 : tableDelete (tableSet s.globals name v).1 name = s.globals :=
      tableDelete_tableSet_of_none _ _ _ hnone
    refine ⟨?_, h3⟩
    apply hstep
    rw [hpeek]
    simp only [h2, if_true]
    simp [runtimeErrorV, h3, setTopFrame, hf]
  · intro w hw
    have h2 : (tableSet s.globals name v).2 = false := by
      cases h : (tableSet s.globals name v).2 with
      | false => rfl
      | true =>
        rw [(tableSet_snd_true_iff _ _ _).mp h] at hw
        cases hw
    refine ⟨?_, tableGet_tableSet_self _ _ _, rfl⟩
    apply hstep
    rw [hpeek]
    simp only [h2, if_false]
    simp [setTopFrame, hf]

/-- The frame of setGState. -/
def setGFrame : Frame :=
  { fnArity := 0, code := [OP_SET_GLOBAL, 0], consts := [.str "x"], fnName := none,
    ip := 0, slots := 0 }

/-- C7 witness: SET_GLOBAL on the unbound name `x` at a concrete state. -/
theorem claim_C7_witness :
    step setGState = .rtError ("Undefined variable '" ++ "x" ++ "'.")
      { setGState with frames := ([] : List Frame), stack := ([] : List Value) }
    ∧ tableDelete (tableSet setGState.globals "x" (.num 5)).1 "x" = setGState.globals :=
  (claim_C7_set_global_insert_delete setGState setGFrame [] 0 "x" (.num 5) []
    rfl rfl rfl rfl rfl).1 rfl

theorem setTopFrame_len (s : VMS) (g : Frame) :
    (setTopFrame s g).frames.length = s.frames.length := by
  unfold setTopFrame; cases s.frames <;> rfl

theorem pushVal_bounds {x : VMS} {v : Value} {y : VMS} (h : pushVal x v = some y) :
    y.frames = x.frames ∧ y.stack.length ≤ STACK_MAX := by
  unfold pushVal at h
  split at h
  · cases h
  · rename_i hg
    injection h with h
    subst h
    refine ⟨rfl, ?_⟩
    simp only [List.length_append, List.length_cons, List.length_nil]
    omega

theorem popVal_bounds {x : VMS} {v : Value} {y : VMS} (h : popVal x = some (v, y)) :
    y.frames = x.frames ∧ y.stack.length ≤ x.stack.length ∧ y.globals = x.globals := by
  unfold popVal at h
  split at h
  · cases h
  · injection h with h
    have h2 : y = { x with stack := x.stack.dropLast } := (congrArg Prod.snd h).symm
    subst h2
    refine ⟨rfl, ?_, rfl⟩
    simp only [List.length_dropLast]
    omega

theorem stepPush_next {x : VMS} {v : Value} {s' : VMS}
    (h : (match pushVal x v with
          | some s => StepOut.next s
          | none => StepOut.fatal "Fatal error: Stack overflow") = .next s') :
    s'.frames = x.frames ∧ s'.stack.length ≤ STACK_MAX := by
  rcases hp : pushVal x v with _ | y <;> rw [hp] at h
  · cases h
  · injection h with h
    subst h
    exact pushVal_bounds hp

theorem callValueV_next {s : VMS} {callee : Value} {argc : Nat} {s' : VMS}
    (h64 : s.frames.length ≤ FRAMES_MAX) (hst : s.stack.length ≤ STACK_MAX)
    (h : callValueV s callee argc = .next s') :
    s'.frames.length ≤ FRAMES_MAX ∧ s'.stack.length ≤ STACK_MAX := by
  unfold callValueV at h
  rcases callee with _ | b | q | st | ⟨ar, up, code, consts, lines, nm⟩ | tag <;>
    dsimp only at h
  · simp only [runtimeErrorV] at h; cases h
  · simp only [runtimeErrorV] at h; cases h
  · simp only [runtimeErrorV] at h; cases h
  · simp only [runtimeErrorV] at h; cases h
  · unfold callFn at h
    split at h
    · simp only [runtimeErrorV] at h; cases h
    · split at h
      · simp only [runtimeErrorV] at h; cases h
      · rename_i h1 h2
        injection h with h
        subst h
        refine ⟨?_, hst⟩
        simp only [List.length_cons]
        simp only [FRAMES_MAX] at h64 h2 ⊢
        omega
  · have hp := stepPush_next h
    refine ⟨?_, hp.2⟩
    rw [hp.1]
    exact h64

theorem stepConstant_inv {s : VMS} {f : Frame} {s' : VMS}
    (h64 : s.frames.length ≤ FRAMES_MAX) (hs : stepConstant s f = .next s') :
    s'.frames.length ≤ FRAMES_MAX ∧ s'.stack.length ≤ STACK_MAX := by
  have hstf : ∀ g : Frame, (setTopFrame s g).frames.length ≤ FRAMES_MAX :=
    fun g => by rw [setTopFrame_len]; exact h64
  unfold stepConstant at hs
  split at hs
  · cases hs
  split at hs
  · cases hs
  obtain ⟨ha, hb'⟩ := stepPush_next hs
  exact ⟨by rw [ha]; exact hstf _, hb'⟩

theorem stepNil_inv {s : VMS} {f : Frame} {s' : VMS}
    (h64 : s.frames.length ≤ FRAMES_MAX) (hs : stepNil s f = .next s') :
    s'.frames.length ≤ FRAMES_MAX ∧ s'.stack.length ≤ STACK_MAX := by
  have hstf : ∀ g : Frame, (setTopFrame s g).frames.length ≤ FRAMES_MAX :=
    fun g => by rw [setTopFrame_len]; exact h64
  unfold stepNil at hs
  obtain ⟨ha, hb'⟩ := stepPush_next hs
  exact ⟨by rw [ha]; exact hstf _, hb'⟩

theorem stepTrue_inv {s : VMS} {f : Frame} {s' : VMS}
    (h64 : s.frames.length ≤ FRAMES_MAX) (hs : stepTrue s f = .next s') :
    s'.frames.length ≤ FRAMES_MAX ∧ s'.stack.length ≤ STACK_MAX := by
  have hstf : ∀ g : Frame, (setTopFrame s g).frames.length ≤ FRAMES_MAX :=
    fun g => by rw [setTopFrame_len]; exact h64
  unfold stepTrue at hs
  obtain ⟨ha, hb'⟩ := stepPush_next hs
  exact ⟨by rw [ha]; exact hstf _, hb'⟩

theorem stepFalse_inv {s : VMS} {f : Frame} {s' : VMS}
    (h64 : s.frames.length ≤ FRAMES_MAX) (hs : stepFalse s f = .next s') :
    s'.frames.length ≤ FRAMES_MAX ∧ s'.stack.length ≤ STACK_MAX := by
  have hstf : ∀ g : Frame, (setTopFrame s g).frames.length ≤ FRAMES_MAX :=
    fun g => by rw [setTopFrame_len]; exact h64
  unfold stepFalse at hs
  obtain ⟨ha, hb'⟩ := stepPush_next hs
  exact ⟨by rw [ha]; exact hstf _, hb'⟩

theorem stepPop_inv {s : VMS} {f : Frame} {s' : VMS}
    (h64 : s.frames.length ≤ FRAMES_MAX) (hst : s.stack.length ≤ STACK_MAX)
    (hs : stepPop s f = .next s') :
    s'.frames.length ≤ FRAMES_MAX ∧ s'.stack.length ≤ STACK_MAX := by
  have hstf : ∀ g : Frame, (setTopFrame s g).frames.length ≤ FRAMES_MAX :=
    fun g => by rw [setTopFrame_len]; exact h64
  unfold stepPop at hs
  split at hs
  · rename_i v y hpp
    injection hs with hs
    subst hs
    obtain ⟨ha, hb', _⟩ := popVal_bounds hpp
    exact ⟨by rw [ha]; exact hstf _, le_trans hb' hst⟩
  · cases hs

theorem stepGetGlobal_inv {s : VMS} {f : Frame} {s' : VMS}
    (h64 : s.frames.length ≤ FRAMES_MAX) (hs : stepGetGlobal s f = .next s') :
    s'.frames.length ≤ FRAMES_MAX ∧ s'.stack.length ≤ STACK_MAX := by
  have hstf : ∀ g : Frame, (setTopFrame s g).frames.length ≤ FRAMES_MAX :=
    fun g => by rw [setTopFrame_len]; exact h64
  unfold stepGetGlobal at hs
  split at hs
  · cases hs
  split at hs
  · try dsimp only at hs
    split at hs
    · simp only [runtimeErrorV] at hs; cases hs
    · obtain ⟨ha, hb'⟩ := stepPush_next hs
      exact ⟨by rw [ha]; exact hstf _, hb'⟩
  · cases hs

theorem stepGetLocal_inv {s : VMS} {f : Frame} {s' : VMS}
    (h64 : s.frames.length ≤ FRAMES_MAX) (hs : stepGetLocal s f = .next s') :
    s'.frames.length ≤ FRAMES_MAX ∧ s'.stack.length ≤ STACK_MAX := by
  have hstf : ∀ g : Frame, (setTopFrame s g).frames.length ≤ FRAMES_MAX :=
    fun g => by rw [setTopFrame_len]; exact h64
  unfold stepGetLocal at hs
  split at hs
  · cases hs
  try dsimp only at hs
  split at hs
  · cases hs
  obtain ⟨ha, hb'⟩ := stepPush_next hs
  exact ⟨by rw [ha]; exact hstf _, hb'⟩

theorem stepSetGlobal_inv {s : VMS} {f : Frame} {s' : VMS}
    (h64 : s.frames.length ≤ FRAMES_MAX) (hst : s.stack.length ≤ STACK_MAX)
    (hs : stepSetGlobal s f = .next s') :
    s'.frames.length ≤ FRAMES_MAX ∧ s'.stack.length ≤ STACK_MAX := by
  have hstf : ∀ g : Frame, (setTopFrame s g).frames.length ≤ FRAMES_MAX :=
    fun g => by rw [setTopFrame_len]; exact h64
  unfold stepSetGlobal at hs
  split at hs
  · cases hs
  split at hs
  · try dsimp only at hs
    split at hs
    · cases hs
    split at hs
    · simp only [runtimeErrorV] at hs; cases hs
    · injection hs with hs
      subst hs
      exact ⟨hstf _, hst⟩
  · cases hs

theorem stepSetLocal_inv {s : VMS} {f : Frame} {s' : VMS}
    (h64 : s.frames.length ≤ FRAMES_MAX) (hst : s.stack.length ≤ STACK_MAX)
    (hs : stepSetLocal s f = .next s') :
    s'.frames.length ≤ FRAMES_MAX ∧ s'.stack.length ≤ STACK_MAX := by
  have hstf : ∀ g : Frame, (setTopFrame s g).frames.length ≤ FRAMES_MAX :=
    fun g => by rw [setTopFrame_len]; exact h64
  unfold stepSetLocal at hs
  split at hs
  · cases hs
  try dsimp only at hs
  split at hs
  · cases hs
  injection hs with hs
  subst hs
  refine ⟨hstf _, ?_⟩
  simpa using hst

theorem stepDefineGlobal_inv {s : VMS} {f : Frame} {s' : VMS}
    (h64 : s.frames.length ≤ FRAMES_MAX) (hst : s.stack.length ≤ STACK_MAX)
    (hs : stepDefineGlobal s f = .next s') :
    s'.frames.length ≤ FRAMES_MAX ∧ s'.stack.length ≤ STACK_MAX := by
  have hstf : ∀ g : Frame, (setTopFrame s g).frames.length ≤ FRAMES_MAX :=
    fun g => by rw [setTopFrame_len]; exact h64
  unfold stepDefineGlobal at hs
  split at hs
  · cases hs
  split at hs
  · try dsimp only at hs
    split at hs
    · cases hs
    split at hs
    · rename_i v2 y hpp
      injection hs with hs
      subst hs
      obtain ⟨ha, hb', _⟩ := popVal_bounds hpp
      exact ⟨by rw [ha]; exact hstf _, le_trans hb' hst⟩
    · cases hs
  · cases hs

theorem stepEqual_inv {s : VMS} {f : Frame} {s' : VMS}
    (h64 : s.frames.length ≤ FRAMES_MAX) (hs : stepEqual s f = .next s') :
    s'.frames.length ≤ FRAMES_MAX ∧ s'.stack.length ≤ STACK_MAX := by
  have hstf : ∀ g : Frame, (setTopFrame s g).frames.length ≤ FRAMES_MAX :=
    fun g => by rw [setTopFrame_len]; exact h64
  unfold stepEqual at hs
  try dsimp only at hs
  split at hs
  · cases hs
  rename_i b1 y1 hp1
  try dsimp only at hs
  split at hs
  · cases hs
  rename_i a1 y2 hp2
  try dsimp only at hs
  split at hs
  · cases hs
  obtain ⟨ha, hb'⟩ := stepPush_next hs
  obtain ⟨ha1, _, _⟩ := popVal_bounds hp1
  obtain ⟨ha2, _, _⟩ := popVal_bounds hp2
  refine ⟨?_, hb'⟩
  rw [ha, ha2, ha1]
  exact hstf _

theorem stepBinaryOp_inv {s : VMS} {f : Frame} {mk : Rat → Rat → Value} {s' : VMS}
    (h64 : s.frames.length ≤ FRAMES_MAX) (hs : stepBinaryOp s f mk = .next s') :
    s'.frames.length ≤ FRAMES_MAX ∧ s'.stack.length ≤ STACK_MAX := by
  have hstf : ∀ g : Frame, (setTopFrame s g).frames.length ≤ FRAMES_MAX :=
    fun g => by rw [setTopFrame_len]; exact h64
  unfold stepBinaryOp at hs
  try dsimp only at hs
  split at hs
  · obtain ⟨ha, hb'⟩ := stepPush_next hs
    exact ⟨by rw [ha]; exact hstf _, hb'⟩
  · simp only [runtimeErrorV] at hs; cases hs
  · cases hs

theorem stepAdd_inv {s : VMS} {f : Frame} {s' : VMS}
    (h64 : s.frames.length ≤ FRAMES_MAX) (hs : stepAdd s f = .next s') :
    s'.frames.length ≤ FRAMES_MAX ∧ s'.stack.length ≤ STACK_MAX := by
  have hstf : ∀ g : Frame, (setTopFrame s g).frames.length ≤ FRAMES_MAX :=
    fun g => by rw [setTopFrame_len]; exact h64
  unfold stepAdd at hs
  try dsimp only at hs
  split at hs
  · split_ifs at hs
    · split at hs
      · obtain ⟨ha, hb'⟩ := stepPush_next hs
        exact ⟨by rw [ha]; exact hstf _, hb'⟩
      · cases hs
    · split at hs
      · obtain ⟨ha, hb'⟩ := stepPush_next hs
        exact ⟨by rw [ha]; exact hstf _, hb'⟩
      · cases hs
    · simp only [runtimeErrorV] at hs; cases hs
  · cases hs

theorem stepNot_inv {s : VMS} {f : Frame} {s' : VMS}
    (h64 : s.frames.length ≤ FRAMES_MAX) (hs : stepNot s f = .next s') :
    s'.frames.length ≤ FRAMES_MAX ∧ s'.stack.length ≤ STACK_MAX := by
  have hstf : ∀ g : Frame, (setTopFrame s g).frames.length ≤ FRAMES_MAX :=
    fun g => by rw [setTopFrame_len]; exact h64
  unfold stepNot at hs
  try dsimp only at hs
  split at hs
  · cases hs
  rename_i v y hpp
  try dsimp only at hs
  obtain ⟨ha, hb'⟩ := stepPush_next hs
  obtain ⟨ha1, _, _⟩ := popVal_bounds hpp
  refine ⟨?_, hb'⟩
  rw [ha, ha1]
  exact hstf _

theorem stepNegate_inv {s : VMS} {f : Frame} {s' : VMS}
    (h64 : s.frames.length ≤ FRAMES_MAX) (hs : stepNegate s f = .next s') :
    s'.frames.length ≤ FRAMES_MAX ∧ s'.stack.length ≤ STACK_MAX := by
  have hstf : ∀ g : Frame, (setTopFrame s g).frames.length ≤ FRAMES_MAX :=
    fun g => by rw [setTopFrame_len]; exact h64
  unfold stepNegate at hs
  try dsimp only at hs
  split at hs
  · cases hs
  split at hs
  · obtain ⟨ha, hb'⟩ := stepPush_next hs
    exact ⟨by rw [ha]; exact hstf _, hb'⟩
  · simp only [runtimeErrorV] at hs; cases hs

theorem stepPrint_inv {s : VMS} {f : Frame} {s' : VMS}
    (h64 : s.frames.length ≤ FRAMES_MAX) (hst : s.stack.length ≤ STACK_MAX)
    (hs : stepPrint s f = .next s') :
    s'.frames.length ≤ FRAMES_MAX ∧ s'.stack.length ≤ STACK_MAX := by
  have hstf : ∀ g : Frame, (setTopFrame s g).frames.length ≤ FRAMES_MAX :=
    fun g => by rw [setTopFrame_len]; exact h64
  unfold stepPrint at hs
  try dsimp only at hs
  split at hs
  · cases hs
  rename_i v y hpp
  injection hs with hs
  subst hs
  obtain ⟨ha, hb', _⟩ := popVal_bounds hpp
  exact ⟨by rw [ha]; exact hstf _, le_trans hb' hst⟩

theorem stepJump_inv {s : VMS} {f : Frame} {s' : VMS}
    (h64 : s.frames.length ≤ FRAMES_MAX) (hst : s.stack.length ≤ STACK_MAX)
    (hs : stepJump s f = .next s') :
    s'.frames.length ≤ FRAMES_MAX ∧ s'.stack.length ≤ STACK_MAX := by
  have hstf : ∀ g : Frame, (setTopFrame s g).frames.length ≤ FRAMES_MAX :=
    fun g => by rw [setTopFrame_len]; exact h64
  unfold stepJump at hs
  split at hs
  · injection hs with hs
    subst hs
    exact ⟨hstf _, hst⟩
  · cases hs

theorem stepLoop_inv {s : VMS} {f : Frame} {s' : VMS}
    (h64 : s.frames.length ≤ FRAMES_MAX) (hst : s.stack.length ≤ STACK_MAX)
    (hs : stepLoop s f = .next s') :
    s'.frames.length ≤ FRAMES_MAX ∧ s'.stack.length ≤ STACK_MAX := by
  have hstf : ∀ g : Frame, (setTopFrame s g).frames.length ≤ FRAMES_MAX :=
    fun g => by rw [setTopFrame_len]; exact h64
  unfold stepLoop at hs
  split at hs
  · injection hs with hs
    subst hs
    exact ⟨hstf _, hst⟩
  · cases hs

theorem stepJumpIfFalse_inv {s : VMS} {f : Frame} {s' : VMS}
    (h64 : s.frames.length ≤ FRAMES_MAX) (hst : s.stack.length ≤ STACK_MAX)
    (hs : stepJumpIfFalse s f = .next s') :
    s'.frames.length ≤ FRAMES_MAX ∧ s'.stack.length ≤ STACK_MAX := by
  have hstf : ∀ g : Frame, (setTopFrame s g).frames.length ≤ FRAMES_MAX :=
    fun g => by rw [setTopFrame_len]; exact h64
  unfold stepJumpIfFalse at hs
  split at hs
  · split at hs
    · cases hs
    try dsimp only at hs
    injection hs with hs
    subst hs
    exact ⟨hstf _, hst⟩
  · cases hs

theorem stepCall_inv {s : VMS} {f : Frame} {s' : VMS}
    (h64 : s.frames.length ≤ FRAMES_MAX) (hst : s.stack.length ≤ STACK_MAX)
    (hs : stepCall s f = .next s') :
    s'.frames.length ≤ FRAMES_MAX ∧ s'.stack.length ≤ STACK_MAX := by
  unfold stepCall at hs
  split at hs
  · cases hs
  try dsimp only at hs
  split at hs
  · cases hs
  refine callValueV_next ?_ ?_ hs
  · rw [setTopFrame_len]; exact h64
  · exact hst

theorem stepReturn_inv {s : VMS} {f : Frame} {s' : VMS}
    (h64 : s.frames.length ≤ FRAMES_MAX) (hst : s.stack.length ≤ STACK_MAX)
    (hs : stepReturn s f = .next s') :
    s'.frames.length ≤ FRAMES_MAX ∧ s'.stack.length ≤ STACK_MAX := by
  unfold stepReturn at hs
  split at hs
  · cases hs
  rename_i result y hpp
  try dsimp only at hs
  split_ifs at hs
  · split at hs
    · cases hs
    · cases hs
  · obtain ⟨ha, hb'⟩ := stepPush_next hs
    obtain ⟨ha1, _, _⟩ := popVal_bounds hpp
    refine ⟨?_, hb'⟩
    rw [ha]
    simp only [List.length_tail]
    rw [ha1]
    omega

/-- Case split on an if-then-else equation without unfolding the branches. -/
theorem ite_next_elim {c : Prop} [Decidable c] {x y z : StepOut} {P : Prop}
    (h : (if c then x else y) = z)
    (h1 : c → x = z → P) (h2 : ¬c → y = z → P) : P := by
  by_cases hc : c
  · exact h1 hc (by rwa [if_pos hc] at h)
  · exact h2 hc (by rwa [if_neg hc] at h)

set_option maxHeartbeats 3200000 in
theorem step_next_inv (s s' : VMS) (h64 : s.frames.length ≤ FRAMES_MAX)
    (hst : s.stack.length ≤ STACK_MAX) (hs : step s = .next s') :
    s'.frames.length ≤ FRAMES_MAX ∧ s'.stack.length ≤ STACK_MAX := by
  have hstf : ∀ g : Frame, (setTopFrame s g).frames.length ≤ FRAMES_MAX :=
    fun g => by rw [setTopFrame_len]; exact h64
  unfold step at hs
  split at hs
  · cases hs
  split at hs
  · cases hs
  refine ite_next_elim hs (fun h' hs => stepConstant_inv h64 hs) (fun h' hs => ?_)
  refine ite_next_elim hs (fun h' hs => stepNil_inv h64 hs) (fun h' hs => ?_)
  refine ite_next_elim hs (fun h' hs => stepTrue_inv h64 hs) (fun h' hs => ?_)
  refine ite_next_elim hs (fun h' hs => stepFalse_inv h64 hs) (fun h' hs => ?_)
  refine ite_next_elim hs (fun h' hs => stepPop_inv h64 hst hs) (fun h' hs => ?_)
  refine ite_next_elim hs (fun h' hs => stepGetGlobal_inv h64 hs) (fun h' hs => ?_)
  refine ite_next_elim hs (fun h' hs => stepGetLocal_inv h64 hs) (fun h' hs => ?_)
  refine ite_next_elim hs (fun h' hs => stepSetGlobal_inv h64 hst hs) (fun h' hs => ?_)
  refine ite_next_elim hs (fun h' hs => stepSetLocal_inv h64 hst hs) (fun h' hs => ?_)
  refine ite_next_elim hs (fun h' hs => stepDefineGlobal_inv h64 hst hs) (fun h' hs => ?_)
  refine ite_next_elim hs (fun h' hs => stepEqual_inv h64 hs) (fun h' hs => ?_)
  refine ite_next_elim hs (fun h' hs => stepBinaryOp_inv h64 hs) (fun h' hs => ?_)
  refine ite_next_elim hs (fun h' hs => stepBinaryOp_inv h64 hs) (fun h' hs => ?_)
  refine ite_next_elim hs (fun h' hs => stepAdd_inv h64 hs) (fun h' hs => ?_)
  refine ite_next_elim hs (fun h' hs => stepBinaryOp_inv h64 hs) (fun h' hs => ?_)
  refine ite_next_elim hs (fun h' hs => stepBinaryOp_inv h64 hs) (fun h' hs => ?_)
  refine ite_next_elim hs (fun h' hs => stepBinaryOp_inv h64 hs) (fun h' hs => ?_)
  refine ite_next_elim hs (fun h' hs => stepNot_inv h64 hs) (fun h' hs => ?_)
  refine ite_next_elim hs (fun h' hs => stepNegate_inv h64 hs) (fun h' hs => ?_)
  refine ite_next_elim hs (fun h' hs => stepPrint_inv h64 hst hs) (fun h' hs => ?_)
  refine ite_next_elim hs (fun h' hs => stepJump_inv h64 hst hs) (fun h' hs => ?_)
  refine ite_next_elim hs (fun h' hs => stepLoop_inv h64 hst hs) (fun h' hs => ?_)
  refine ite_next_elim hs (fun h' hs => stepJumpIfFalse_inv h64 hst hs) (fun h' hs => ?_)
  refine ite_next_elim hs (fun h' hs => stepCall_inv h64 hst hs) (fun h' hs => ?_)
  refine ite_next_elim hs (fun h' hs => stepReturn_inv h64 hst hs) (fun h' hs => ?_)
  injection hs with hs
  subst hs
  exact ⟨hstf _, hst⟩

/-- C8: In every VM state reachable by run()'s dispatch steps from a state
within bounds, the frame stack holds at most 64 frames and the value stack
at most 64 × 256 = 16384 slots (push aborts the process rather than exceed
STACK_MAX, and call refuses a 65th frame); and a CALL executed with the
frame stack full, whose callee is a function of matching arity, pushes no
frame and raises the runtime error "Stack overflow.". -/
theorem claim_C8_frame_and_stack_bounds (s0 s : VMS) (h0 : StackInv s0)
    (hr : Reaches s0 s) :
    StackInv s
    ∧ (∀ (f : Frame) (fs : List Frame) (argc ar up : Nat) (code : List Nat)
        (consts : List Value) (lines : List Nat) (nm : Option String),
        s.frames = f :: fs → s.frames.length = 64 →
        f.code.get? f.ip = some OP_CALL →
        f.code.get? (f.ip + 1) = some argc →
        peekVal s argc = some (.fn ar up code consts lines nm) →
        argc = ar →
        step s = .rtError "Stack overflow."
          { s with frames := ([] : List Frame), stack := ([] : List Value) }) := by
  constructor
  · induction hr with
    | refl => exact h0
    | tail _ hrel ih => exact step_next_inv _ _ ih.1 ih.2 hrel
  · intro f fs argc ar up code consts lines nm hf h64 hop hb hpk harg
    subst harg
    unfold step
    rw [hf]
    simp only [readByteAt, hop, hb, OP_PRINT, OP_CONSTANT, OP_NIL, OP_TRUE,
      OP_FALSE, OP_POP, OP_GET_GLOBAL, OP_GET_LOCAL, OP_SET_GLOBAL, OP_SET_LOCAL,
      OP_DEFINE_GLOBAL, OP_EQUAL, OP_GREATER, OP_LESS, OP_ADD, OP_SUBTRACT,
      OP_MULTIPLY, OP_DIVIDE, OP_NOT, OP_NEGATE, OP_JUMP, OP_LOOP,
      OP_JUMP_IF_FALSE, OP_CALL, Nat.reduceEqDiff, reduceIte]
    have hpk2 : peekVal (setTopFrame s { f with ip := f.ip + 2 }) argc
        = some (.fn argc up code consts lines nm) := hpk
    unfold stepCall
    simp only [readByteAt, hb]
    try dsimp only
    rw [hpk2]
    dsimp only
    simp only [callValueV, callFn]
    rw [if_neg (by simp)]
    rw [if_pos (by rw [setTopFrame_len, h64]; rfl)]
    simp [runtimeErrorV, setTopFrame, hf]

/-- C8 witness: the invariant at a concrete in-bounds state, and the
"Stack overflow." error on a CALL at a concrete 64-frame state. -/
theorem claim_C8_witness :
    StackInv fullState
    ∧ step fullState = .rtError "Stack overflow."
      { fullState with frames := ([] : List Frame), stack := ([] : List Value) } := by
  have h := claim_C8_frame_and_stack_bounds fullState fullState
    (by constructor <;> simp [fullState, FRAMES_MAX, STACK_MAX])
    Relation.ReflTransGen.refl
  refine ⟨h.1, ?_⟩
  exact h.2 callFrame (List.replicate 63 callFrame) 0 0 0 [OP_CALL, 0] [] [] none
    rfl rfl rfl rfl rfl rfl

end Clox
